import Mathlib

/-!
Verification development for the CTF Hunger Games match engine
(`src/ctf_hunger_game.py`, driven by `src/agent.py`).

The engine is shallowly embedded: Python dicts become association lists
(insertion-ordered, like Python dicts), in-place mutation becomes functional
update, machine integers are `Int`, Python floats are modelled as `ℚ`,
`random` draws are explicit parameters of the embedded functions, and a
Python statement that can raise (`KeyError`, `AttributeError`) is embedded
as `Except String`.  Log/print messages of the source are not modelled.
-/

namespace CTFGame

/-- Association-list lookup; embeds Python `d[k]` / `d.get(k)` on dicts
whose keys have decidable equality. -/
def alookup {α β : Type} [DecidableEq α] : List (α × β) → α → Option β
  | [], _ => none
  | (k, v) :: rest, a => if k = a then some v else alookup rest a

/-- In-place update `d[k] = f d[k]` of a Python dict: the binding list keeps
its order, only the value at the key changes. -/
def aupdate {α β : Type} [DecidableEq α] (l : List (α × β)) (a : α) (f : β → β) :
    List (α × β) :=
  l.map (fun kv => (kv.1, if kv.1 = a then f kv.2 else kv.2))

/-- Axial hex coordinate `(q, r)`, used as a dict key in the source. -/
abbrev Coord := Int × Int

/-- `ActionType` enum of the source. -/
inductive ActionType
  | MOVE | ATTACK_PLAYER | SOLVE_CTF | CLAIM_TERRITORY
  | REST | SCOUT | DEFEND | STEAL_PROGRESS
  deriving DecidableEq, Repr

/-- `ActionType.value` strings. -/
def ActionType.value : ActionType → String
  | .MOVE => "move"
  | .ATTACK_PLAYER => "attack_player"
  | .SOLVE_CTF => "solve_ctf"
  | .CLAIM_TERRITORY => "claim_territory"
  | .REST => "rest"
  | .SCOUT => "scout"
  | .DEFEND => "defend"
  | .STEAL_PROGRESS => "steal_progress"

/-- `PlayerStatus` enum of the source. -/
inductive PlayerStatus
  | ALIVE | ELIMINATED | WINNER | LOST_TIMEOUT
  deriving DecidableEq, Repr

/-- `PlayerStatus.value` strings. -/
def PlayerStatus.value : PlayerStatus → String
  | .ALIVE => "alive"
  | .ELIMINATED => "eliminated"
  | .WINNER => "winner"
  | .LOST_TIMEOUT => "lost_timeout"

/-- The dynamically-typed `status` field of a player dict: normally a
`PlayerStatus` enum member, but the three-strike disqualification path of
`_action_move` assigns the raw string `PlayerStatus.ELIMINATED.value`. -/
inductive StatusField
  | enum (s : PlayerStatus)
  | str (s : String)
  deriving DecidableEq, Repr

/-- Python `status.value`: enum members have a `.value` attribute, a raw
string does not (`AttributeError`). -/
def statusValue : StatusField → Except String String
  | .enum s => Except.ok s.value
  | .str _ => Except.error ("AttributeError: str object has no attribute value")

/-- `HexType` enum of the source. -/
inductive HexType
  | NORMAL | RESOURCE
  deriving DecidableEq, Repr

/-- One board cell (`self.hexagons[(q, r)]`). -/
structure Cell where
  type : HexType
  owner : Option Nat := none
  defense : Int := 0
  bonus_consumed : Bool := false
  deriving DecidableEq, Repr

/-- One player dict, as built by `_initialize_players` plus the two keys
that are created dynamically later: `_bad_moves` (created by `setdefault`
with default 0, and always read with that default — modelled as a total
field) and `alive` (written only on the disqualification path and read by
the post-action energy check; its absence matters, so it stays optional). -/
structure Player where
  id : Nat
  name : String := ""
  position : Coord
  energy : Int := 15
  max_energy : Int := 15
  health : Int := 100
  shield : Int := 0
  status : StatusField := .enum .ALIVE
  ctf_progress : ℚ := 0
  ctf_hints : List String := []
  ctf_attempts : Nat := 0
  territories : List Coord := []
  territory_income : Int := 0
  attack_power : Int := 5
  defense_power : Int := 3
  kills : Nat := 0
  defending : Bool := false
  vision_range : Int := 2
  visible_hexagons : List Coord := []
  visible_players : List Nat := []
  actions_taken : Nat := 0
  idle_streak : Nat := 0
  last_actions : List String := []
  since_objective : Nat := 0
  seen_tiles : List String := []
  color : String := ""
  bad_moves : Nat := 0
  alive : Option Bool := none
  deriving DecidableEq, Repr

/-- History entry appended by `execute_turn`. -/
structure HistEntry where
  round : Nat
  turn : Nat
  player_id : Nat
  action : String
  deriving DecidableEq, Repr

/-- The match state owned by `CTFHungerGame` (wall-clock fields are not
modelled; the time-limit comparison enters `execute_turn` as a Boolean
parameter).  `ctf_hints_pool` is the fixed 3-element `self.ctf_hints` list. -/
structure Game where
  hexagons : List (Coord × Cell)
  players : List (Nat × Player)
  round_number : Nat := 0
  turn_number : Nat := 0
  game_over : Bool := false
  winner : Option Nat := none
  correct_flag : String := "flag\x7bhexagonal_hunger_games_victory_2025\x7d"
  ctf_hints_pool : List String :=
    ["The flag format is: flag\x7b...\x7d",
     "Look for patterns in the challenge description",
     "Try common CTF techniques: base64, rot13, XOR"]
  action_history : List HistEntry := []
  deriving DecidableEq, Repr

/-- The result dict returned by an action / by `execute_turn`.  Keys that a
given Python result dict does not carry are `none` / default here; log
message strings are not modelled. -/
structure ActRes where
  action : Option String := none
  success : Bool := false
  error : Option String := none
  winner : Option Nat := none
  eliminated : Bool := false
  elimination_reason : Option String := none
  eliminated_reason : Option String := none
  strikes : Option Nat := none
  energy : Option Int := none
  energy_before : Option Int := none
  energy_after : Option Int := none
  energy_required : Option Int := none
  energy_available : Option Int := none
  position : Option Coord := none
  damage_dealt : Option Int := none
  energy_stolen : Option Int := none
  target_health : Option Int := none
  attacker_energy : Option Int := none
  progress_stolen : Option ℚ := none
  ctf_progress : Option ℚ := none
  flag_valid : Option Bool := none
  game_over_flag : Option Bool := none
  hints_unlocked : List String := []
  hints_stolen : List String := []
  intel_players : List Nat := []
  territories_count : Option Nat := none
  income : Option Int := none
  health : Option Int := none
  shield : Option Int := none
  reason : Option String := none
  original_action : Option String := none
  validation_legal : Option Bool := none
  player_id : Option Nat := none
  deriving DecidableEq, Repr

/-- Outcomes of the external / random draws consumed during one turn:
the wall-clock time-limit comparison, the LLM judge verdict (fail-open),
`random.uniform(5, 15)` in `_calculate_ctf_progress_gain`, and the
`random.random() < 0.5` hint-steal roll of `_action_steal_progress`. -/
structure Env where
  timeExpired : Bool := false
  legal : Bool := true
  baseGain : ℚ := 10
  stealRoll : Bool := false
  deriving DecidableEq, Repr

/-! ## Hex geometry (`_is_adjacent`, `_hex_distance`, `_get_adjacent_hexagons`) -/

/-- `_hex_distance`: `(abs(q1-q2) + abs(r1-r2) + abs((q1+r1)-(q2+r2))) // 2`. -/
def hex_distance (a b : Coord) : Nat :=
  ((a.1 - b.1).natAbs + (a.2 - b.2).natAbs + ((a.1 + a.2) - (b.1 + b.2)).natAbs) / 2

/-- `_is_adjacent`: the same sum, `// 2 == 1`. -/
def is_adjacent (a b : Coord) : Bool :=
  ((a.1 - b.1).natAbs + (a.2 - b.2).natAbs + ((a.1 + a.2) - (b.1 + b.2)).natAbs) / 2 = 1

/-- The fixed direction set of `_get_adjacent_hexagons`. -/
def directions : List Coord := [(1, 0), (1, -1), (0, -1), (-1, 0), (-1, 1), (0, 1)]

/-- `self.hexagons.get(c)` / membership test. -/
def lookupHex (g : Game) (c : Coord) : Option Cell := alookup g.hexagons c

/-- `self.players.get(pid)`. -/
def getPlayer (g : Game) (pid : Nat) : Option Player := alookup g.players pid

/-- In-place mutation of one player dict. -/
def setPlayer (g : Game) (pid : Nat) (f : Player → Player) : Game :=
  { g with players := aupdate g.players pid f }

/-- In-place mutation of one cell dict. -/
def setHex (g : Game) (c : Coord) (f : Cell → Cell) : Game :=
  { g with hexagons := aupdate g.hexagons c f }

/-- `_get_adjacent_hexagons`: the six offsets, kept when on the board. -/
def adjacentHexes (g : Game) (c : Coord) : List Coord :=
  (directions.map (fun d => (c.1 + d.1, c.2 + d.2))).filter
    (fun n => (lookupHex g n).isSome)

/-- `_coord_key`. -/
def coordKey (c : Coord) : String := toString c.1 ++ "," ++ toString c.2

/-- `_update_vision`: recompute `visible_hexagons` (board cells within
`vision_range` of the position) and then `visible_players` (other alive
players positioned on a visible cell).  Call sites always pass an existing
player id; on a missing id the state is returned unchanged. -/
def update_vision (g : Game) (pid : Nat) : Game :=
  match getPlayer g pid with
  | none => g
  | some p =>
    let vis := (g.hexagons.map (fun kv => kv.1)).filter
      (fun c => (hex_distance p.position c : Int) ≤ p.vision_range)
    let g1 := setPlayer g pid (fun q => { q with visible_hexagons := vis })
    let visPlayers := (g1.players.filter (fun kv =>
        decide (kv.1 ≠ pid) && decide (kv.2.status = StatusField.enum .ALIVE) &&
        decide (kv.2.position ∈ vis))).map (fun kv => kv.1)
    setPlayer g1 pid (fun q => { q with visible_players := visPlayers })

/-- `get_alive_players`. -/
def get_alive_players (g : Game) : List Nat :=
  (g.players.filter (fun kv => decide (kv.2.status = StatusField.enum .ALIVE))).map
    (fun kv => kv.1)

/-- `_declare_winner`: set the winner, end the game, and move every other
still-alive player to the loser status for this win type. -/
def declare_winner (g : Game) (pid : Nat) (timeout : Bool) : Game :=
  let g1 := { g with winner := some pid, game_over := true }
  let g2 := setPlayer g1 pid (fun p => { p with status := .enum .WINNER })
  let loser : StatusField := if timeout then .enum .LOST_TIMEOUT else .enum .ELIMINATED
  { g2 with players := g2.players.map (fun kv =>
      (kv.1, if kv.1 ≠ pid ∧ kv.2.status = StatusField.enum .ALIVE
             then { kv.2 with status := loser } else kv.2)) }

/-- `GreenAgent.eliminate_player` (the `reason` argument is only printed in
the source and is dropped here): mark the player `ELIMINATED`, release all
hexes in their territory list, then run the last-survivor check. -/
def eliminate_player (g : Game) (pid : Nat) : Game :=
  match getPlayer g pid with
  | none => g
  | some player =>
    let g1 := setPlayer g pid (fun p => { p with status := .enum .ELIMINATED })
    let g2 := player.territories.foldl
      (fun acc c => setHex acc c (fun cell => { cell with owner := none })) g1
    match get_alive_players g2 with
    | [a] => declare_winner g2 a false
    | [] => { g2 with game_over := true }
    | _ => g2

/-- `GreenAgent.timeout_elimination`. -/
def timeout_elimination (g : Game) (pid : Nat) : ActRes × Game :=
  ({ error := some ("Timeout"), eliminated := true, player_id := some pid },
   eliminate_player g pid)

/-- `_apply_idle_tax`. -/
def apply_idle_tax (g : Game) (pid : Nat) (isObjective : Bool) : Game :=
  setPlayer g pid (fun p =>
    if isObjective then { p with idle_streak := 0 }
    else
      let p1 := { p with idle_streak := p.idle_streak + 1 }
      if p1.idle_streak ≥ 3 then { p1 with energy := p1.energy - 2, idle_streak := 0 }
      else p1)

/-- `_check_eliminations`: every alive player with `health <= 0`, or else
with `energy < 0`, is eliminated.  The Python loop iterates over the live
dict, so each step reads the state left by the previous eliminations. -/
def check_eliminations (g : Game) : Game :=
  (g.players.map (fun kv => kv.1)).foldl
    (fun acc pid =>
      match getPlayer acc pid with
      | none => acc
      | some p =>
        if p.status = StatusField.enum .ALIVE then
          if p.health ≤ 0 then eliminate_player acc pid
          else if p.energy < 0 then eliminate_player acc pid
          else acc
        else acc)
    g

/-- One BFS round of `_find_nearest_unowned_for_player`, with explicit fuel
(the Python loop terminates because every cell is enqueued at most once;
`hexagons.length + 1` units of fuel are enough to replay it exactly). -/
def bfsBack (start : Coord) (parent : List (Coord × Option Coord)) :
    Nat → Coord → Option Coord
  | 0, _ => none
  | fuel + 1, cur =>
    match alookup parent cur with
    | some (some par) => if par = start then some cur else bfsBack start parent fuel par
    | _ => none

/-- The BFS loop of `_find_nearest_unowned_for_player`: FIFO queue, visit
neighbors in the fixed direction order, stop at the first unowned hex other
than the start and backtrack to the first step toward it. -/
def bfsLoop (g : Game) (start : Coord) :
    Nat → List Coord → List Coord → List (Coord × Option Coord) → Option Coord
  | 0, _, _, _ => none
  | _ + 1, [], _, _ => none
  | fuel + 1, cur :: rest, seen, parent =>
    if decide (cur ≠ start) && (match lookupHex g cur with
                                | some cell => decide (cell.owner = none)
                                | none => false) then
      bfsBack start parent (fuel + 1) cur
    else
      let step := (adjacentHexes g cur).foldl
        (fun (acc : List Coord × List (Coord × Option Coord) × List Coord) nb =>
          if nb ∈ acc.1 then acc
          else (nb :: acc.1, acc.2.1 ++ [(nb, some cur)], acc.2.2 ++ [nb]))
        (seen, parent, [])
      bfsLoop g start fuel (rest ++ step.2.2) step.1 step.2.1

/-- `_find_nearest_unowned_for_player`. -/
def find_nearest_unowned (g : Game) (pid : Nat) : Option Coord :=
  match getPlayer g pid with
  | none => none
  | some p =>
    bfsLoop g p.position (g.hexagons.length + 1) [p.position] [p.position]
      [(p.position, none)]

/-- `_get_action_cost` (the `cost_map`; note `STEAL_PROGRESS: 4` here while
the resolver itself checks and deducts 6). -/
def action_cost : ActionType → Int
  | .MOVE => 2
  | .ATTACK_PLAYER => 4
  | .SOLVE_CTF => 5
  | .CLAIM_TERRITORY => 3
  | .REST => -3
  | .SCOUT => 2
  | .DEFEND => 2
  | .STEAL_PROGRESS => 4

/-- The `data` payload dict of a requested action; absent keys are `none`
(`if not data or key not in data` in the source reduces to the key being
absent). -/
structure ActionData where
  target : Option Coord := none
  target_player : Option Nat := none
  flag : Option String := none
  deriving DecidableEq, Repr

/-! ## Action implementations -/

/-- Appending to `last_actions` with the 5-entry sliding window
(`append` then `pop(0)` when the length exceeds 5). -/
def pushLastAction (l : List String) (a : String) : List String :=
  let l1 := l ++ [a]
  if l1.length > 5 then l1.tail else l1

/-- `_action_move`.  Invalid targets cost 1 energy and a strike; the third
strike sets `alive = False` and assigns the raw string
`PlayerStatus.ELIMINATED.value` to `status`.  A successful move relocates,
costs 2 energy, resets strikes, refreshes vision and consumes a one-time
resource bonus on the destination. -/
def action_move (g : Game) (pid : Nat) (data : ActionData) :
    Except String (ActRes × Game) :=
  match getPlayer g pid with
  | none => Except.error ("KeyError: player_id")
  | some player =>
    let energy_before := player.energy
    match data.target with
    | none =>
      Except.ok ({ error := some ("No target specified"), success := false,
                   energy_before := some energy_before,
                   energy_after := some energy_before }, g)
    | some target_hex =>
      let current_pos := player.position
      if ¬ is_adjacent current_pos target_hex then
        let g1 := setPlayer g pid (fun p =>
          { p with bad_moves := p.bad_moves + 1, energy := max 0 (p.energy - 1) })
        let strikes := player.bad_moves + 1
        let res : ActRes :=
          { error := some ("Target not adjacent"), success := false,
            energy_before := some energy_before,
            energy_after := some (max 0 (player.energy - 1)),
            strikes := some strikes }
        if strikes ≥ 3 then
          let g2 := setPlayer g1 pid (fun p =>
            { p with alive := some false, status := .str (PlayerStatus.ELIMINATED.value) })
          Except.ok ({ res with
                       eliminated := true
                       elimination_reason :=
                         some ("Repeated illegal moves (3 strikes)") }, g2)
        else Except.ok (res, g1)
      else if (lookupHex g target_hex).isNone then
        let g1 := setPlayer g pid (fun p =>
          { p with bad_moves := p.bad_moves + 1, energy := max 0 (p.energy - 1) })
        let strikes := player.bad_moves + 1
        let res : ActRes :=
          { error := some ("Invalid target hexagon"), success := false,
            energy_before := some energy_before,
            energy_after := some (max 0 (player.energy - 1)),
            strikes := some strikes }
        if strikes ≥ 3 then
          let g2 := setPlayer g1 pid (fun p =>
            { p with alive := some false, status := .str (PlayerStatus.ELIMINATED.value) })
          Except.ok ({ res with
                       eliminated := true
                       elimination_reason :=
                         some ("Repeated illegal moves (3 strikes)") }, g2)
        else Except.ok (res, g1)
      else if player.energy < 2 then
        Except.ok ({ error := some ("Insufficient energy"), success := false,
                     energy_before := some energy_before,
                     energy_after := some energy_before }, g)
      else
        let g1 := setPlayer g pid (fun p =>
          { p with position := target_hex, energy := p.energy - 2, bad_moves := 0 })
        let g2 := update_vision g1 pid
        match lookupHex g2 target_hex with
        | none => Except.error ("KeyError: hexagon")
        | some hex_data =>
          let bonus := hex_data.type = HexType.RESOURCE ∧ hex_data.bonus_consumed = false
          let g3 := if bonus then
              setHex (setPlayer g2 pid (fun p =>
                { p with energy := min p.max_energy (p.energy + 3) }))
                target_hex (fun cell => { cell with bonus_consumed := true })
            else g2
          let finalEnergy := match getPlayer g3 pid with
            | some p => p.energy
            | none => 0
          Except.ok ({ action := some ("move"), success := true,
                       position := some target_hex,
                       energy := some finalEnergy }, g3)

/-- `_action_attack_player`. -/
def action_attack_player (g : Game) (pid : Nat) (data : ActionData) :
    Except String (ActRes × Game) :=
  match getPlayer g pid with
  | none => Except.error ("KeyError: player_id")
  | some attacker =>
    match data.target_player with
    | none => Except.ok ({ error := some ("No target player specified"),
                           success := false }, g)
    | some target_id =>
      match getPlayer g target_id with
      | none => Except.ok ({ error := some ("Invalid target player"),
                             success := false }, g)
      | some target =>
        if target.status ≠ StatusField.enum .ALIVE then
          Except.ok ({ error := some ("Target player is not alive"),
                       success := false }, g)
        else if ¬ is_adjacent attacker.position target.position then
          Except.ok ({ error := some ("Target not adjacent"), success := false }, g)
        else if target.defending then
          Except.ok ({ action := some ("attack_player"), success := false,
                       energy := some attacker.energy }, g)
        else if attacker.energy < 4 then
          Except.ok ({ error := some ("Insufficient energy"), success := false }, g)
        else
          let total_damage := attacker.attack_power
          let actual_damage := max 0 (total_damage - target.shield - target.defense_power)
          let stolen := if actual_damage > 0 then min 3 target.energy else 0
          let newAtkEnergy :=
            if actual_damage > 0 then min attacker.max_energy (attacker.energy - 4 + stolen)
            else attacker.energy - 4
          let newHealth := target.health - actual_damage
          let g1 := setPlayer g pid (fun p => { p with energy := newAtkEnergy })
          let g2 := setPlayer g1 target_id (fun p =>
            { p with shield := max 0 (p.shield - total_damage),
                     health := p.health - actual_damage,
                     energy := p.energy - stolen })
          if newHealth ≤ 0 then
            let g3 := eliminate_player g2 target_id
            let progress_stolen := target.ctf_progress * (3 / 10 : ℚ)
            let g4 := setPlayer g3 pid (fun p =>
              { p with kills := p.kills + 1,
                       ctf_progress := min 100 (p.ctf_progress + progress_stolen) })
            Except.ok ({ action := some ("attack_player"), success := true,
                         damage_dealt := some actual_damage,
                         energy_stolen := some stolen,
                         target_health := some newHealth,
                         attacker_energy := some newAtkEnergy,
                         eliminated := true,
                         progress_stolen := some progress_stolen }, g4)
          else
            Except.ok ({ action := some ("attack_player"), success := true,
                         damage_dealt := some actual_damage,
                         energy_stolen := some stolen,
                         target_health := some newHealth,
                         attacker_energy := some newAtkEnergy,
                         eliminated := false,
                         progress_stolen := some 0 }, g2)

/-- `_calculate_ctf_progress_gain`, with the `random.uniform(5, 15)` draw as
the explicit `baseGain` argument; reads the player state after the 5-energy
deduction and the attempt increment, as the source does. -/
def calc_ctf_progress_gain (p : Player) (baseGain : ℚ) : ℚ :=
  let territory_bonus : ℚ := (p.territories.length : ℚ) * 2
  let attempt_bonus : ℚ := min ((p.ctf_attempts : ℚ) * (3 / 2 : ℚ)) 10
  let energy_penalty : ℚ := if p.energy ≥ 5 then 0 else 5
  max 0 (baseGain + territory_bonus + attempt_bonus - energy_penalty)

/-- One hint-milestone step of `_action_solve_ctf`: at each threshold the
pool hint of that rank is appended when the current hint count equals the
rank. -/
def unlockStep (pool : List String) (progress : ℚ) (threshold : ℚ) (rank : Nat)
    (st : List String × List String) : List String × List String :=
  if progress ≥ threshold ∧ st.1.length = rank then
    (st.1 ++ [pool.getD rank ("")], st.2 ++ [pool.getD rank ("")])
  else st

/-- `_action_solve_ctf`.  A correct flag wins the match instantly; a wrong
or missing flag yields progress and may unlock hints at 25/50/75. -/
def action_solve_ctf (g : Game) (pid : Nat) (data : ActionData) (env : Env) :
    Except String (ActRes × Game) :=
  match getPlayer g pid with
  | none => Except.error ("KeyError: player_id")
  | some player =>
    if player.energy < 5 then
      Except.ok ({ error := some ("Insufficient energy"), success := false }, g)
    else
      let g1 := setPlayer g pid (fun p =>
        { p with energy := p.energy - 5, ctf_attempts := p.ctf_attempts + 1 })
      let p1 := { player with energy := player.energy - 5,
                              ctf_attempts := player.ctf_attempts + 1 }
      -- `if flag_attempt:` — `None` and the empty string are both falsy
      if data.flag.getD ("") ≠ "" ∧ data.flag.getD ("") = g.correct_flag then
        let g2 := declare_winner g1 pid false
        Except.ok ({ action := some ("solve_ctf"), success := true,
                     flag_valid := some true, energy := some p1.energy,
                     game_over_flag := some true }, g2)
      else
        let gain := calc_ctf_progress_gain p1 env.baseGain
        let newProgress := min 100 (p1.ctf_progress + gain)
        let st0 : List String × List String := (p1.ctf_hints, [])
        let st1 := unlockStep g.ctf_hints_pool newProgress 25 0 st0
        let st2 := unlockStep g.ctf_hints_pool newProgress 50 1 st1
        let st3 := unlockStep g.ctf_hints_pool newProgress 75 2 st2
        let g2 := setPlayer g1 pid (fun p =>
          { p with ctf_progress := newProgress,
                   ctf_hints := st3.1,
                   last_actions := pushLastAction p.last_actions ("solve_ctf"),
                   since_objective := 0 })
        Except.ok ({ action := some ("solve_ctf"), success := false,
                     flag_valid := some false, energy := some p1.energy,
                     ctf_progress := some newProgress,
                     hints_unlocked := st3.2 }, g2)

/-- `_action_claim_territory`, including the stall auto-conversion to a MOVE
toward the nearest unowned hex when the current cell is already owned. -/
def action_claim_territory (g : Game) (pid : Nat) :
    Except String (ActRes × Game) :=
  match getPlayer g pid with
  | none => Except.error ("KeyError: player_id")
  | some player =>
    let current_hex := player.position
    match lookupHex g current_hex with
    | none => Except.error ("KeyError: hexagon")
    | some hex_data =>
      if hex_data.owner = some pid ∨ current_hex ∈ player.territories then
        let alreadyOwned : ActRes :=
          { action := some ("claim_territory"), success := false,
            error := some ("Already owned"),
            position := some current_hex,
            territories_count := some player.territories.length,
            income := some player.territory_income,
            energy := some player.energy }
        match find_nearest_unowned g pid with
        | some target =>
          if player.energy ≥ 2 then
            match action_move g pid { target := some target } with
            | Except.error e => Except.error e
            | Except.ok (mr, g1) =>
              Except.ok ({ mr with
                           action := some ("auto_move")
                           reason := some ("anti_stall_claim_owned")
                           original_action := some ("claim_territory") }, g1)
          else Except.ok (alreadyOwned, g)
        | none => Except.ok (alreadyOwned, g)
      else if hex_data.owner ≠ none ∧ hex_data.owner ≠ some pid then
        Except.ok ({ error := some ("Hexagon owned by another player"),
                     success := false }, g)
      else if player.energy < 3 then
        Except.ok ({ error := some ("Insufficient energy"), success := false }, g)
      else
        let g1 := setPlayer g pid (fun p => { p with energy := p.energy - 3 })
        let g2 := setHex g1 current_hex (fun cell => { cell with owner := some pid })
        let isNew := current_hex ∉ player.territories
        let g3 := if isNew then
            setPlayer g2 pid (fun p =>
              { p with territories := p.territories ++ [current_hex],
                       territory_income := p.territory_income + 1 })
          else g2
        let g4 := setPlayer g3 pid (fun p => { p with idle_streak := 0 })
        let pAfter := getPlayer g4 pid
        Except.ok ({ action := some ("claim_territory"), success := true,
                     position := some current_hex,
                     territories_count :=
                       some ((pAfter.map (fun p => p.territories.length)).getD 0),
                     income := some ((pAfter.map (fun p => p.territory_income)).getD 0),
                     energy := some (player.energy - 3) }, g4)

/-- The plain recovery path of `_action_rest` (reached whenever the
anti-spam conversion does not fire or finds no target). -/
def rest_normal (g : Game) (pid : Nat) (player : Player) :
    Except String (ActRes × Game) :=
  match lookupHex g player.position with
  | none => Except.error ("KeyError: hexagon")
  | some hex_data =>
    let energy_gain := 3 + player.territory_income
    let newEnergy := min player.max_energy (player.energy + energy_gain)
    let newHealth := min 100 (player.health + 10)
    let newShield :=
      if hex_data.defense > 0 then min 20 (player.shield + hex_data.defense * 2)
      else player.shield
    let g1 := setPlayer g pid (fun p =>
      { p with energy := newEnergy, health := newHealth, shield := newShield,
               last_actions := pushLastAction p.last_actions ("rest"),
               since_objective := p.since_objective + 1 })
    Except.ok ({ action := some ("rest"), success := true,
                 energy := some newEnergy, health := some newHealth,
                 shield := some newShield }, g1)

/-- `_action_rest`, including the anti-REST-spam auto-conversion (rest twice
in a row with energy at least 4 converts into a MOVE when a target exists;
otherwise control falls through to the normal rest). -/
def action_rest (g : Game) (pid : Nat) : Except String (ActRes × Game) :=
  match getPlayer g pid with
  | none => Except.error ("KeyError: player_id")
  | some player =>
    if player.last_actions.getLast? = some ("rest") ∧ player.energy ≥ 4 then
      match find_nearest_unowned g pid with
      | some target =>
        if player.energy ≥ 2 then
          match action_move g pid { target := some target } with
          | Except.error e => Except.error e
          | Except.ok (mr, g1) =>
            Except.ok ({ mr with
                         action := some ("auto_move")
                         reason := some ("anti_stall_rest_spam")
                         original_action := some ("rest") }, g1)
        else rest_normal g pid player
      | none => rest_normal g pid player
    else rest_normal g pid player

/-- Set-style insertion into `seen_tiles`. -/
def seenInsert (l : List String) (k : String) : List String :=
  if k ∈ l then l else l ++ [k]

/-- The plain scouting path of `_action_scout`: pay 2 energy, mark the
current cell and its neighbors seen, gather intel under a temporarily
doubled vision range, then restore it. -/
def scout_normal (g : Game) (pid : Nat) (player : Player) :
    Except String (ActRes × Game) :=
  let current_pos := player.position
  let neighbors := adjacentHexes g current_pos
  let g1 := setPlayer g pid (fun p =>
    { p with energy := p.energy - 2,
             seen_tiles := neighbors.foldl
               (fun acc nb => seenInsert acc (coordKey nb))
               (seenInsert p.seen_tiles (coordKey current_pos)) })
  let g2 := setPlayer g1 pid (fun p =>
    { p with vision_range := p.vision_range + 2 })
  let g3 := update_vision g2 pid
  let intel := match getPlayer g3 pid with
    | some p => p.visible_players
    | none => []
  let g4 := setPlayer g3 pid (fun p =>
    { p with vision_range := p.vision_range - 2 })
  let g5 := update_vision g4 pid
  let g6 := setPlayer g5 pid (fun p =>
    { p with last_actions := pushLastAction p.last_actions ("scout"),
             since_objective := p.since_objective + 1 })
  let finalEnergy := player.energy - 2
  Except.ok ({ action := some ("scout"), success := true,
               energy := some finalEnergy, intel_players := intel }, g6)

/-- `_action_scout`, including the anti-SCOUT-spam auto-conversion when no
unseen neighbor remains and more than three tiles are already explored. -/
def action_scout (g : Game) (pid : Nat) : Except String (ActRes × Game) :=
  match getPlayer g pid with
  | none => Except.error ("KeyError: player_id")
  | some player =>
    if player.energy < 2 then
      Except.ok ({ error := some ("Insufficient energy"), success := false }, g)
    else
      let neighbors := adjacentHexes g player.position
      let unseen := neighbors.filter (fun nb => decide (coordKey nb ∉ player.seen_tiles))
      if unseen = [] ∧ player.seen_tiles.length > 3 then
        match find_nearest_unowned g pid with
        | some target =>
          if player.energy ≥ 2 then
            match action_move g pid { target := some target } with
            | Except.error e => Except.error e
            | Except.ok (mr, g1) =>
              Except.ok ({ mr with
                           action := some ("auto_move")
                           reason := some ("anti_stall_scout_spam")
                           original_action := some ("scout") }, g1)
          else scout_normal g pid player
        | none => scout_normal g pid player
      else scout_normal g pid player

/-- `_action_defend`. -/
def action_defend (g : Game) (pid : Nat) : Except String (ActRes × Game) :=
  match getPlayer g pid with
  | none => Except.error ("KeyError: player_id")
  | some player =>
    let g1 := setPlayer g pid (fun p =>
      { p with energy := p.energy - 2, defending := true })
    Except.ok ({ action := some ("defend"), success := true,
                 energy := some (player.energy - 2) }, g1)

/-- `_action_steal_progress`.  The `random.random() < 0.5` hint roll enters
as `env.stealRoll`; on a successful roll the target's last unlocked hint is
popped and, when the attacker does not already hold it, appended to the
attacker's hints. -/
def action_steal_progress (g : Game) (pid : Nat) (data : ActionData) (env : Env) :
    Except String (ActRes × Game) :=
  match getPlayer g pid with
  | none => Except.error ("KeyError: player_id")
  | some attacker =>
    match data.target_player with
    | none => Except.ok ({ error := some ("No target player specified"),
                           success := false }, g)
    | some target_id =>
      match getPlayer g target_id with
      | none => Except.ok ({ error := some ("Invalid target player"),
                             success := false }, g)
      | some target =>
        if target.status ≠ StatusField.enum .ALIVE then
          Except.ok ({ error := some ("Target player is not alive"),
                       success := false }, g)
        else if ¬ is_adjacent attacker.position target.position then
          Except.ok ({ error := some ("Target not adjacent"), success := false }, g)
        else if attacker.energy < 6 then
          Except.ok ({ error := some ("Insufficient energy"), success := false }, g)
        else if target.health > 50 then
          Except.ok ({ error := some ("Target too strong to steal from"),
                       success := false }, g)
        else
          let g1 := setPlayer g pid (fun p => { p with energy := p.energy - 6 })
          let stolen_progress := target.ctf_progress * (2 / 5 : ℚ)
          let g2 := setPlayer g1 target_id (fun p =>
            { p with ctf_progress := max 0 (p.ctf_progress - stolen_progress) })
          let g3 := setPlayer g2 pid (fun p =>
            { p with ctf_progress := min 100 (p.ctf_progress + stolen_progress) })
          let doSteal := env.stealRoll ∧ target.ctf_hints.length > 0
          let stolen_hint := target.ctf_hints.getLastD ("")
          let hints_stolen :=
            if doSteal ∧ stolen_hint ∉ attacker.ctf_hints then [stolen_hint] else []
          let g4 := if doSteal then
              setPlayer g3 target_id (fun p => { p with ctf_hints := p.ctf_hints.dropLast })
            else g3
          let g5 := if doSteal ∧ stolen_hint ∉ attacker.ctf_hints then
              setPlayer g4 pid (fun p => { p with ctf_hints := p.ctf_hints ++ [stolen_hint] })
            else g4
          let g6 := setPlayer g5 target_id (fun p => { p with health := p.health - 15 })
          let finalAtkProgress := min 100 (attacker.ctf_progress + stolen_progress)
          Except.ok ({ action := some ("steal_progress"), success := true,
                       progress_stolen := some stolen_progress,
                       hints_stolen := hints_stolen,
                       ctf_progress := some finalAtkProgress,
                       target_health := some (target.health - 15),
                       energy := some (attacker.energy - 6) }, g6)

/-! ## Resolver entry points (`_execute_action`, `execute_turn`) -/

/-- Dispatch table `action_map`, total over the enum (the source dict covers
every member, so its `Invalid action` fallback is unreachable). -/
def dispatch (g : Game) (pid : Nat) (action : ActionType) (data : ActionData)
    (env : Env) : Except String (ActRes × Game) :=
  match action with
  | .MOVE => action_move g pid data
  | .ATTACK_PLAYER => action_attack_player g pid data
  | .SOLVE_CTF => action_solve_ctf g pid data env
  | .CLAIM_TERRITORY => action_claim_territory g pid
  | .REST => action_rest g pid
  | .SCOUT => action_scout g pid
  | .DEFEND => action_defend g pid
  | .STEAL_PROGRESS => action_steal_progress g pid data env

/-- `_execute_action`: the positive-cost affordability pre-check, the
dispatch, then the post-action step that clamps the acting player's energy
at 0 and — when it is exactly 0 — reads the `alive` key of the player dict
(`player['energy'] == 0 and player['alive']`), a key `_initialize_players`
never creates. -/
def execute_action (g : Game) (pid : Nat) (action : ActionType) (data : ActionData)
    (env : Env) : Except String (ActRes × Game) :=
  match getPlayer g pid with
  | none => Except.error ("KeyError: player_id")
  | some player =>
    let cost := action_cost action
    if cost > 0 ∧ player.energy < cost then
      Except.ok ({ error := some ("Insufficient energy"), success := false,
                   energy_required := some cost,
                   energy_available := some player.energy,
                   action := some action.value }, g)
    else
      match dispatch g pid action data env with
      | Except.error e => Except.error e
      | Except.ok (result, g1) =>
        let g2 := setPlayer g1 pid (fun p => { p with energy := max 0 p.energy })
        match getPlayer g2 pid with
        | none => Except.error ("KeyError: player_id")
        | some p2 =>
          if p2.energy = 0 then
            match p2.alive with
            | none => Except.error ("KeyError: alive")
            | some a =>
              if a then
                let g3 := eliminate_player g2 pid
                Except.ok ({ result with eliminated_reason := some ("energy_depleted") },
                           g3)
              else Except.ok (result, g2)
          else Except.ok (result, g2)

/-- `execute_turn`: game-over and liveness guards, the wall-clock timeout
elimination, the Green-Agent pre-validation (its LLM verdict, fail-open on
errors, enters as `env.legal`), the action execution, idle taxation, action
history recording, counters, and the post-turn elimination sweep. -/
def execute_turn (g : Game) (pid : Nat) (action : ActionType) (data : ActionData)
    (env : Env) : Except String (ActRes × Game) :=
  if g.game_over then
    Except.ok ({ error := some ("Game is over"), winner := g.winner }, g)
  else
    match getPlayer g pid with
    | none => Except.ok ({ error := some ("Player is not active") }, g)
    | some player =>
      if player.status ≠ StatusField.enum .ALIVE then
        Except.ok ({ error := some ("Player is not active") }, g)
      else if env.timeExpired then
        Except.ok (timeout_elimination g pid)
      else if ¬ env.legal then
        Except.ok ({ error := some ("Illegal move blocked by Green Agent"),
                     success := false, validation_legal := some false,
                     action := some action.value }, g)
      else
        match execute_action g pid action data env with
        | Except.error e => Except.error e
        | Except.ok (result0, g1) =>
          let result := { result0 with validation_legal := some true }
          let is_objective :=
            action = ActionType.SOLVE_CTF ∨ action = ActionType.ATTACK_PLAYER ∨
              action = ActionType.STEAL_PROGRESS
          let g2 := apply_idle_tax g1 pid is_objective
          let executed := result.action.getD action.value
          let g3 := { g2 with action_history := g2.action_history ++
              [{ round := g2.round_number, turn := g2.turn_number,
                 player_id := pid, action := executed }] }
          let g4 := setPlayer g3 pid (fun p => { p with actions_taken := p.actions_taken + 1 })
          let g5 := { g4 with turn_number := g4.turn_number + 1 }
          let g6 := check_eliminations g5
          Except.ok (result, g6)

/-- The per-round `self.game.round_number = round_num` assignment of the
driver loop in `agent.py` — the only other mutation of engine state the
driver performs between turns. -/
def set_round (g : Game) (n : Nat) : Game := { g with round_number := n }

/-! ## Game state export and timeout ranking -/

/-- The per-player projection built by `get_game_state`, whose `status`
entry is `p['status'].value`. -/
structure PlayerView where
  name : String
  position : Coord
  energy : Int
  health : Int
  shield : Int
  status_value : String
  ctf_progress : ℚ
  territories_count : Nat
  kills : Nat
  color : String
  seen : List String
  deriving DecidableEq, Repr

/-- `get_game_state`, restricted to the player projections (the other
entries are either counters copied verbatim or the hexagon projection,
which cannot fault): reading `status.value` on the raw-string status left
by the three-strike path raises `AttributeError`. -/
def viewPlayers : List (Nat × Player) → Except String (List (Nat × PlayerView))
  | [] => Except.ok []
  | kv :: rest =>
    match statusValue kv.2.status with
    | Except.error e => Except.error e
    | Except.ok sv =>
      match viewPlayers rest with
      | Except.error e => Except.error e
      | Except.ok vs =>
        Except.ok ((kv.1,
          { name := kv.2.name, position := kv.2.position, energy := kv.2.energy,
            health := kv.2.health, shield := kv.2.shield, status_value := sv,
            ctf_progress := kv.2.ctf_progress,
            territories_count := kv.2.territories.length, kills := kv.2.kills,
            color := kv.2.color, seen := kv.2.seen_tiles }) :: vs)

/-- The full export just wraps the player projection (the remaining entries
of the source dict are counters copied verbatim and the hexagon projection,
neither of which can fault). -/
def get_game_state (g : Game) : Except String (List (Nat × PlayerView)) :=
  viewPlayers g.players

/-- `score_player` inside `_rank_on_timeout`. -/
def score_player (p : Player) : ℚ :=
  3 * p.ctf_progress + 2 * (p.territories.length : ℚ) +
    1 * (p.seen_tiles.length : ℚ) + (1 / 2 : ℚ) * (p.energy : ℚ) +
    1 * (p.kills : ℚ) - (1 / 2 : ℚ) * (p.bad_moves : ℚ)

/-- The score of a player id in a game (all ids scored by `_rank_on_timeout`
exist in the players dict). -/
def scoreOf (g : Game) (pid : Nat) : ℚ :=
  match getPlayer g pid with
  | some p => score_player p
  | none => 0

/-- `_rank_on_timeout`: `max(alive_players, key=score_player)` — Python's
`max` keeps the earliest element on ties, i.e. replaces the running best
only on a strictly greater score. -/
def rank_on_timeout (g : Game) : Option Nat :=
  match get_alive_players g with
  | [] => none
  | a :: rest =>
    some (rest.foldl (fun best pid =>
      if scoreOf g pid > scoreOf g best then pid else best) a)

/-! ## Concrete match snapshots used as witnesses and counterexamples -/

/-- A fresh player as `_initialize_players` builds one (the structure
defaults are the initializer's values), at a chosen position. -/
def mkPlayer (i : Nat) (pos : Coord) : Player :=
  { id := i, position := pos }

/-- A two-cell board: `(0,0)` and the adjacent `(1,0)`, both NORMAL. -/
def board2 : List (Coord × Cell) :=
  [((0, 0), { type := .NORMAL }), ((1, 0), { type := .NORMAL })]

/-- C6 scenario: attacker at `(0,0)`, defender at `(1,0)`, both with the
symmetric starting stats (energy 15, health 100, shield 0, attack 5,
defense 3, not defending). -/
def duelGame : Game :=
  { hexagons := board2,
    players := [(1, mkPlayer 1 (0, 0)), (2, mkPlayer 2 (1, 0))] }

/-- A player one MOVE away from exact energy depletion. -/
def lowEnergyGame : Game :=
  { hexagons := board2,
    players := [(1, { mkPlayer 1 (0, 0) with energy := 2 })] }

/-- Same depletion setup with a spectator, for the turn-level statement. -/
def lowEnergyGame2 : Game :=
  { hexagons := board2 ++ [((0, 1), { type := .NORMAL })],
    players := [(1, { mkPlayer 1 (0, 0) with energy := 2 }),
                (2, mkPlayer 2 (0, 1))] }

/-- A player with two strikes who owns their current cell: the next invalid
MOVE disqualifies them. -/
def dqGame : Game :=
  { hexagons := [((0, 0), { type := .NORMAL, owner := some 1 }),
                 ((1, 0), { type := .NORMAL })],
    players := [(1, { mkPlayer 1 (0, 0) with
                        territories := [(0, 0)], bad_moves := 2 }),
                (2, mkPlayer 2 (1, 0))] }

/-- A steal scenario: vulnerable adjacent target holding one unlocked hint. -/
def stealGame : Game :=
  { hexagons := board2,
    players := [(1, mkPlayer 1 (0, 0)),
                (2, { mkPlayer 2 (1, 0) with
                        health := 40, ctf_progress := 50,
                        ctf_hints := ["The flag format is: flag\x7b...\x7d"] })] }

/-- A timeout-ranking snapshot: two alive players with distinct scores. -/
def rankGame : Game :=
  { hexagons := board2,
    players := [(1, { mkPlayer 1 (0, 0) with ctf_progress := 10 }),
                (2, { mkPlayer 2 (1, 0) with ctf_progress := 20 })] }

/-- A defending player about to be acted around in a later round. -/
def defendGame : Game :=
  { hexagons := board2,
    players := [(1, mkPlayer 1 (0, 0)),
                (2, { mkPlayer 2 (1, 0) with defending := true })] }

/-- A board with an unconsumed RESOURCE cell next to the player. -/
def resourceGame : Game :=
  { hexagons := [((0, 0), { type := .NORMAL }),
                 ((1, 0), { type := .RESOURCE })],
    players := [(1, mkPlayer 1 (0, 0))] }

/-- The same board after the bonus was consumed. -/
def resourceGameUsed : Game :=
  { hexagons := [((0, 0), { type := .NORMAL }),
                 ((1, 0), { type := .RESOURCE, bonus_consumed := true })],
    players := [(1, mkPlayer 1 (0, 0))] }

/-- The state after the disqualifying third invalid MOVE in `dqGame`. -/
def dqAfter : Game :=
  match action_move dqGame 1 { target := some (5, 5) } with
  | Except.ok (_, g) => g
  | Except.error _ => dqGame

/-- The result dict of that disqualifying MOVE. -/
def dqRes : ActRes :=
  match action_move dqGame 1 { target := some (5, 5) } with
  | Except.ok (r, _) => r
  | Except.error _ => {}

/-- The state after the hint-stealing STEAL_PROGRESS in `stealGame`. -/
def stealAfter : Game :=
  match action_steal_progress stealGame 1 { target_player := some 2 }
      { stealRoll := true } with
  | Except.ok (_, g) => g
  | Except.error _ => stealGame

/-- The result dict of the hint-stealing STEAL_PROGRESS in `stealGame`. -/
def stealRes : ActRes :=
  match action_steal_progress stealGame 1 { target_player := some 2 }
      { stealRoll := true } with
  | Except.ok (r, _) => r
  | Except.error _ => {}

/-- The state after the C6 scenario ATTACK in `duelGame`. -/
def duelAfter : Game :=
  match action_attack_player duelGame 1 { target_player := some 2 } with
  | Except.ok (_, g) => g
  | Except.error _ => duelGame

/-- The result dict of the C6 scenario ATTACK. -/
def duelRes : ActRes :=
  match action_attack_player duelGame 1 { target_player := some 2 } with
  | Except.ok (r, _) => r
  | Except.error _ => {}

/-- The state after player 1 RESTs in `defendGame` (a full next-round turn
of another participant; player 2 defended in the previous round). -/
def defendAfter : Game :=
  match execute_turn defendGame 1 ActionType.REST {} {} with
  | Except.ok (_, g) => g
  | Except.error _ => defendGame

/-- The result dict of that turn. -/
def defendRes : ActRes :=
  match execute_turn defendGame 1 ActionType.REST {} {} with
  | Except.ok (r, _) => r
  | Except.error _ => {}

/-- The state after MOVE onto the fresh resource cell of `resourceGame`. -/
def resourceAfter : Game :=
  match action_move resourceGame 1 { target := some (1, 0) } with
  | Except.ok (_, g) => g
  | Except.error _ => resourceGame

/-- The result dict of that MOVE. -/
def resRes : ActRes :=
  match action_move resourceGame 1 { target := some (1, 0) } with
  | Except.ok (r, _) => r
  | Except.error _ => {}

/-! ## Preservation predicates used by the invariant theorems -/

/-- A `defending = true` flag survives the step. -/
def PlayerKeep (p p' : Player) : Prop :=
  p.defending = true → p'.defending = true

/-- Additionally, the unlocked-hints sequence is only ever extended. -/
def PlayerKeepH (p p' : Player) : Prop :=
  PlayerKeep p p' ∧ ∃ t, p'.ctf_hints = p.ctf_hints ++ t

/-- A consumed resource bonus stays consumed. -/
def CellKeep (c c' : Cell) : Prop :=
  c.bonus_consumed = true → c'.bonus_consumed = true

/-- Every player of `g` survives into `g'` related by `R`. -/
def PMap (R : Player → Player → Prop) (g g' : Game) : Prop :=
  ∀ pid p, getPlayer g pid = some p → ∃ p', getPlayer g' pid = some p' ∧ R p p'

/-- Every cell of `g` survives into `g'` with `CellKeep`. -/
def HMap (g g' : Game) : Prop :=
  ∀ c cell, lookupHex g c = some cell →
    ∃ cell', lookupHex g' c = some cell' ∧ CellKeep cell cell'

/-- Full step preservation (players incl. hint extension, cells). -/
def Pres (g g' : Game) : Prop := PMap PlayerKeepH g g' ∧ HMap g g'

/-- Weak step preservation (no hint claim; STEAL_PROGRESS pops a hint). -/
def PresW (g g' : Game) : Prop := PMap PlayerKeep g g' ∧ HMap g g'

/-! ## Theorems -/

section Lemmas

lemma alookup_mapval {α β : Type} [DecidableEq α] (l : List (α × β))
    (h : α → β → β) (a : α) :
    alookup (l.map (fun kv => (kv.1, h kv.1 kv.2))) a = (alookup l a).map (h a) := by
  induction l with
  | nil => rfl
  | cons kv rest ih =>
    simp only [List.map_cons, alookup]
    by_cases hk : kv.1 = a
    · subst hk
      simp
    · simp [hk, ih]

lemma alookup_mem {α β : Type} [DecidableEq α] (l : List (α × β)) (a : α) (b : β)
    (h : alookup l a = some b) : (a, b) ∈ l := by
  induction l with
  | nil => simp [alookup] at h
  | cons kv rest ih =>
    simp only [alookup] at h
    by_cases hk : kv.1 = a
    · subst hk
      rw [if_pos rfl] at h
      injection h with h2
      subst h2
      exact List.mem_cons_self _ _
    · rw [if_neg hk] at h
      exact List.mem_cons_of_mem _ (ih h)

lemma getPlayer_setPlayer (g : Game) (pid : Nat) (f : Player → Player) (k : Nat) :
    getPlayer (setPlayer g pid f) k =
      (getPlayer g k).map (fun v => if k = pid then f v else v) := by
  simpa [getPlayer, setPlayer, aupdate] using
    alookup_mapval g.players (fun k0 v => if k0 = pid then f v else v) k

lemma getPlayer_setPlayer_self (g : Game) (pid : Nat) (f : Player → Player) (p : Player)
    (h : getPlayer g pid = some p) :
    getPlayer (setPlayer g pid f) pid = some (f p) := by
  rw [getPlayer_setPlayer, h]
  simp

lemma getPlayer_setPlayer_other (g : Game) (pid : Nat) (f : Player → Player) (k : Nat)
    (h : k ≠ pid) : getPlayer (setPlayer g pid f) k = getPlayer g k := by
  rw [getPlayer_setPlayer]
  cases hk : getPlayer g k <;> simp [h]

lemma lookupHex_setHex (g : Game) (c0 : Coord) (f : Cell → Cell) (c : Coord) :
    lookupHex (setHex g c0 f) c =
      (lookupHex g c).map (fun v => if c = c0 then f v else v) := by
  simpa [lookupHex, setHex, aupdate] using
    alookup_mapval g.hexagons (fun k0 v => if k0 = c0 then f v else v) c

lemma lookupHex_setPlayer (g : Game) (pid : Nat) (f : Player → Player) (c : Coord) :
    lookupHex (setPlayer g pid f) c = lookupHex g c := rfl

lemma getPlayer_setHex (g : Game) (c0 : Coord) (f : Cell → Cell) (k : Nat) :
    getPlayer (setHex g c0 f) k = getPlayer g k := rfl

lemma update_vision_hexagons (g : Game) (pid : Nat) :
    (update_vision g pid).hexagons = g.hexagons := by
  unfold update_vision
  cases getPlayer g pid <;> rfl

lemma lookupHex_update_vision (g : Game) (pid : Nat) (c : Coord) :
    lookupHex (update_vision g pid) c = lookupHex g c := by
  unfold lookupHex
  rw [update_vision_hexagons]

lemma getPlayer_update_vision_self (g : Game) (pid : Nat) (p : Player)
    (hp : getPlayer g pid = some p) :
    ∃ p', getPlayer (update_vision g pid) pid = some p' ∧
      p'.energy = p.energy ∧ p'.max_energy = p.max_energy ∧
      p'.position = p.position ∧ p'.defending = p.defending ∧
      p'.ctf_hints = p.ctf_hints ∧ p'.status = p.status ∧
      p'.territories = p.territories := by
  unfold update_vision
  rw [hp]
  dsimp only
  exact ⟨_, getPlayer_setPlayer_self _ _ _ _ (getPlayer_setPlayer_self _ _ _ _ hp),
    rfl, rfl, rfl, rfl, rfl, rfl, rfl⟩

lemma viewPlayers_error (l : List (Nat × Player)) (pid : Nat) (q : Player) (s : String)
    (hmem : (pid, q) ∈ l) (hs : q.status = StatusField.str s) :
    ∃ e, viewPlayers l = Except.error e := by
  induction l with
  | nil => cases hmem
  | cons kv rest ih =>
    rcases List.mem_cons.mp hmem with h | h
    · subst h
      simp only [viewPlayers, hs, statusValue]
      exact ⟨_, rfl⟩
    · obtain ⟨e, he⟩ := ih h
      simp only [viewPlayers]
      cases hsv : statusValue kv.2.status with
      | error e0 => exact ⟨e0, rfl⟩
      | ok sv =>
        rw [he]
        exact ⟨e, rfl⟩

lemma keepH_same {p p' : Player} (h1 : p'.defending = p.defending)
    (h2 : p'.ctf_hints = p.ctf_hints) : PlayerKeepH p p' :=
  ⟨fun h => h1.trans h, [], by simp [h2]⟩

lemma keepH_refl (p : Player) : PlayerKeepH p p := keepH_same rfl rfl

lemma keepH_trans {p q r : Player} (h1 : PlayerKeepH p q) (h2 : PlayerKeepH q r) :
    PlayerKeepH p r := by
  obtain ⟨d1, t1, ht1⟩ := h1
  obtain ⟨d2, t2, ht2⟩ := h2
  exact ⟨fun h => d2 (d1 h), t1 ++ t2, by simp [ht2, ht1]⟩

lemma keep_trans {p q r : Player} (h1 : PlayerKeep p q) (h2 : PlayerKeep q r) :
    PlayerKeep p r := fun h => h2 (h1 h)

lemma cellKeep_trans {c d e : Cell} (h1 : CellKeep c d) (h2 : CellKeep d e) :
    CellKeep c e := fun h => h2 (h1 h)

lemma pres_refl (g : Game) : Pres g g :=
  ⟨fun _ p hp => ⟨p, hp, keepH_refl p⟩, fun _ cell hc => ⟨cell, hc, fun h => h⟩⟩

lemma pres_trans {g1 g2 g3 : Game} (h1 : Pres g1 g2) (h2 : Pres g2 g3) :
    Pres g1 g3 := by
  refine ⟨fun pid p hp => ?_, fun c cell hc => ?_⟩
  · obtain ⟨q, hq, r1⟩ := h1.1 pid p hp
    obtain ⟨q', hq', r2⟩ := h2.1 pid q hq
    exact ⟨q', hq', keepH_trans r1 r2⟩
  · obtain ⟨d, hd, r1⟩ := h1.2 c cell hc
    obtain ⟨d', hd', r2⟩ := h2.2 c d hd
    exact ⟨d', hd', cellKeep_trans r1 r2⟩

lemma pres_presW {g g' : Game} (h : Pres g g') : PresW g g' :=
  ⟨fun pid p hp => by
    obtain ⟨q, hq, r⟩ := h.1 pid p hp
    exact ⟨q, hq, r.1⟩, h.2⟩

lemma presW_trans {g1 g2 g3 : Game} (h1 : PresW g1 g2) (h2 : PresW g2 g3) :
    PresW g1 g3 := by
  refine ⟨fun pid p hp => ?_, fun c cell hc => ?_⟩
  · obtain ⟨q, hq, r1⟩ := h1.1 pid p hp
    obtain ⟨q', hq', r2⟩ := h2.1 pid q hq
    exact ⟨q', hq', keep_trans r1 r2⟩
  · obtain ⟨d, hd, r1⟩ := h1.2 c cell hc
    obtain ⟨d', hd', r2⟩ := h2.2 c d hd
    exact ⟨d', hd', cellKeep_trans r1 r2⟩

lemma pres_of_eq {g g' : Game} (hp : g'.players = g.players)
    (hh : g'.hexagons = g.hexagons) : Pres g g' := by
  refine ⟨fun pid p hq => ⟨p, ?_, keepH_refl p⟩, fun c cell hc => ⟨cell, ?_, fun h => h⟩⟩
  · simpa [getPlayer, hp] using hq
  · simpa [lookupHex, hh] using hc

lemma pres_setPlayer (g : Game) (pid : Nat) (f : Player → Player)
    (hf : ∀ p, getPlayer g pid = some p → PlayerKeepH p (f p)) :
    Pres g (setPlayer g pid f) := by
  refine ⟨fun k p hk => ?_, fun c cell hc => ⟨cell, hc, fun h => h⟩⟩
  rw [getPlayer_setPlayer, hk]
  by_cases hkp : k = pid
  · subst hkp
    exact ⟨f p, by simp, hf p hk⟩
  · exact ⟨p, by simp [hkp], keepH_refl p⟩

lemma presW_setPlayer (g : Game) (pid : Nat) (f : Player → Player)
    (hf : ∀ p, getPlayer g pid = some p → PlayerKeep p (f p)) :
    PresW g (setPlayer g pid f) := by
  refine ⟨fun k p hk => ?_, fun c cell hc => ⟨cell, hc, fun h => h⟩⟩
  rw [getPlayer_setPlayer, hk]
  by_cases hkp : k = pid
  · subst hkp
    exact ⟨f p, by simp, hf p hk⟩
  · exact ⟨p, by simp [hkp], fun h => h⟩

lemma pres_setHex (g : Game) (c0 : Coord) (f : Cell → Cell)
    (hf : ∀ c, CellKeep c (f c)) : Pres g (setHex g c0 f) := by
  refine ⟨fun k p hk => ⟨p, hk, keepH_refl p⟩, fun c cell hc => ?_⟩
  rw [lookupHex_setHex, hc]
  by_cases hcc : c = c0
  · subst hcc
    exact ⟨f cell, by simp, hf cell⟩
  · exact ⟨cell, by simp [hcc], fun h => h⟩

lemma pres_update_vision (g : Game) (pid : Nat) : Pres g (update_vision g pid) := by
  unfold update_vision
  cases hp : getPlayer g pid with
  | none => exact pres_refl g
  | some p =>
    refine pres_trans (pres_setPlayer g pid _ ?_) (pres_setPlayer _ pid _ ?_)
    · intro q _
      exact keepH_same rfl rfl
    · intro q _
      exact keepH_same rfl rfl

lemma pres_mapval (g : Game) (h : Nat → Player → Player)
    (hf : ∀ k p, PlayerKeepH p (h k p)) :
    Pres g { g with players := g.players.map (fun kv => (kv.1, h kv.1 kv.2)) } := by
  refine ⟨fun k p hk => ?_, fun c cell hc => ⟨cell, hc, fun hh => hh⟩⟩
  have hm : getPlayer { g with players := g.players.map (fun kv => (kv.1, h kv.1 kv.2)) } k
      = (alookup g.players k).map (h k) := alookup_mapval g.players h k
  rw [hm]
  rw [getPlayer] at hk
  rw [hk]
  exact ⟨h k p, rfl, hf k p⟩

lemma pres_declare_winner (g : Game) (pid : Nat) (b : Bool) :
    Pres g (declare_winner g pid b) := by
  have h1 : Pres g { g with winner := some pid, game_over := true } := pres_of_eq rfl rfl
  have h2 := pres_setPlayer { g with winner := some pid, game_over := true } pid
    (fun p => { p with status := StatusField.enum .WINNER })
    (fun q _ => keepH_same rfl rfl)
  have h3 := pres_mapval
    (setPlayer { g with winner := some pid, game_over := true } pid
      (fun p => { p with status := StatusField.enum .WINNER }))
    (fun k v => if k ≠ pid ∧ v.status = StatusField.enum .ALIVE
                then { v with status := if b then StatusField.enum .LOST_TIMEOUT
                                        else StatusField.enum .ELIMINATED }
                else v)
    (fun k p => by
      by_cases hcond : k ≠ pid ∧ p.status = StatusField.enum .ALIVE
      · simp only [if_pos hcond]
        exact keepH_same rfl rfl
      · simp only [if_neg hcond]
        exact keepH_refl p)
  exact pres_trans (pres_trans h1 h2) h3

lemma pres_foldl {α : Type} (step : Game → α → Game)
    (h : ∀ acc x, Pres acc (step acc x)) :
    ∀ (l : List α) (g : Game), Pres g (l.foldl step g) := by
  intro l
  induction l with
  | nil => exact fun g => pres_refl g
  | cons x rest ih => exact fun g => pres_trans (h g x) (ih (step g x))

lemma pres_eliminate (g : Game) (pid : Nat) : Pres g (eliminate_player g pid) := by
  unfold eliminate_player
  cases hp : getPlayer g pid with
  | none => exact pres_refl g
  | some player =>
    have h1 := pres_setPlayer g pid
      (fun p => { p with status := StatusField.enum .ELIMINATED })
      (fun q _ => keepH_same rfl rfl)
    have h2 := pres_foldl
      (fun acc c => setHex acc c (fun cell => { cell with owner := none }))
      (fun acc c => pres_setHex acc c _ (fun cl h => h))
      player.territories
      (setPlayer g pid (fun p => { p with status := StatusField.enum .ELIMINATED }))
    have h12 := pres_trans h1 h2
    dsimp only
    split
    · exact pres_trans h12 (pres_declare_winner _ _ false)
    · exact pres_trans h12 (pres_of_eq rfl rfl)
    · exact h12

lemma pres_timeout (g : Game) (pid : Nat) :
    Pres g (timeout_elimination g pid).2 := pres_eliminate g pid

lemma pres_idle_tax (g : Game) (pid : Nat) (b : Bool) :
    Pres g (apply_idle_tax g pid b) := by
  unfold apply_idle_tax
  refine pres_setPlayer g pid _ (fun p _ => ?_)
  by_cases hb : b
  · simp only [if_pos hb]
    exact keepH_same rfl rfl
  · simp only [if_neg hb]
    by_cases hs : p.idle_streak + 1 ≥ 3
    · simp only [if_pos hs]
      exact keepH_same rfl rfl
    · simp only [if_neg hs]
      exact keepH_same rfl rfl

lemma pres_check_elims (g : Game) : Pres g (check_eliminations g) := by
  unfold check_eliminations
  refine pres_foldl _ (fun acc pid => ?_) _ g
  cases hq : getPlayer acc pid with
  | none => exact pres_refl acc
  | some p =>
    dsimp only
    by_cases hs : p.status = StatusField.enum .ALIVE
    · simp only [if_pos hs]
      by_cases hh : p.health ≤ 0
      · simp only [if_pos hh]
        exact pres_eliminate acc pid
      · simp only [if_neg hh]
        by_cases he : p.energy < 0
        · simp only [if_pos he]
          exact pres_eliminate acc pid
        · simp only [if_neg he]
          exact pres_refl acc
    · simp only [if_neg hs]
      exact pres_refl acc

lemma action_move_success (g : Game) (pid : Nat) (data : ActionData) (p : Player)
    (t : Coord) (cell : Cell)
    (hp : getPlayer g pid = some p) (ht : data.target = some t)
    (hadj : is_adjacent p.position t = true) (hcell : lookupHex g t = some cell)
    (hen : ¬ p.energy < 2) :
    action_move g pid data =
      (let g2 := update_vision (setPlayer g pid (fun q =>
          { q with position := t, energy := q.energy - 2, bad_moves := 0 })) pid
       let g3 := if cell.type = HexType.RESOURCE ∧ cell.bonus_consumed = false then
           setHex (setPlayer g2 pid (fun q =>
             { q with energy := min q.max_energy (q.energy + 3) }))
             t (fun c0 => { c0 with bonus_consumed := true })
         else g2
       Except.ok ({ action := some ("move"), success := true, position := some t,
                    energy := some (match getPlayer g3 pid with
                                    | some q => q.energy
                                    | none => 0) }, g3)) := by
  unfold action_move
  rw [hp, ht]
  dsimp only
  rw [if_neg (by simp [hadj]), hcell]
  rw [if_neg (by simp), if_neg hen]
  rw [lookupHex_update_vision, lookupHex_setPlayer, hcell]

lemma getPlayer_same_players {g g' : Game} (h : g'.players = g.players) (k : Nat) :
    getPlayer g' k = getPlayer g k := by
  unfold getPlayer
  rw [h]

lemma players_foldl_setHex (f : Cell → Cell) (l : List Coord) :
    ∀ g : Game, (l.foldl (fun acc c => setHex acc c f) g).players = g.players := by
  induction l with
  | nil => exact fun g => rfl
  | cons c rest ih => exact fun g => ih (setHex g c f)

lemma getPlayer_declare_frame (g : Game) (w : Nat) (b : Bool) (k : Nat) (p : Player)
    (h : getPlayer g k = some p) :
    ∃ s, getPlayer (declare_winner g w b) k = some { p with status := s } := by
  have h2 : getPlayer (setPlayer { g with winner := some w, game_over := true } w
      (fun q => { q with status := StatusField.enum .WINNER })) k =
      some (if k = w then { p with status := StatusField.enum .WINNER } else p) := by
    by_cases hkw : k = w
    · rw [if_pos hkw]
      subst hkw
      exact getPlayer_setPlayer_self _ _ _ _ h
    · rw [if_neg hkw, getPlayer_setPlayer_other _ _ _ _ hkw]
      exact h
  unfold getPlayer at h2
  by_cases hkw : k = w
  · refine ⟨StatusField.enum .WINNER,
      (alookup_mapval
        (setPlayer { g with winner := some w, game_over := true } w
          (fun q => { q with status := StatusField.enum .WINNER })).players
        (fun k0 v => if k0 ≠ w ∧ v.status = StatusField.enum .ALIVE
                     then { v with status := if b then StatusField.enum .LOST_TIMEOUT
                                             else StatusField.enum .ELIMINATED }
                     else v) k).trans ?_⟩
    rw [h2, if_pos hkw]
    simp [hkw]
  · by_cases hst : p.status = StatusField.enum .ALIVE
    · refine ⟨if b then StatusField.enum .LOST_TIMEOUT else StatusField.enum .ELIMINATED,
        (alookup_mapval
          (setPlayer { g with winner := some w, game_over := true } w
            (fun q => { q with status := StatusField.enum .WINNER })).players
          (fun k0 v => if k0 ≠ w ∧ v.status = StatusField.enum .ALIVE
                       then { v with status := if b then StatusField.enum .LOST_TIMEOUT
                                               else StatusField.enum .ELIMINATED }
                       else v) k).trans ?_⟩
      rw [h2, if_neg hkw]
      simp [hkw, hst]
    · refine ⟨p.status,
        (alookup_mapval
          (setPlayer { g with winner := some w, game_over := true } w
            (fun q => { q with status := StatusField.enum .WINNER })).players
          (fun k0 v => if k0 ≠ w ∧ v.status = StatusField.enum .ALIVE
                       then { v with status := if b then StatusField.enum .LOST_TIMEOUT
                                               else StatusField.enum .ELIMINATED }
                       else v) k).trans ?_⟩
      rw [h2, if_neg hkw]
      simp [hst]

lemma getPlayer_eliminate_frame (g : Game) (e : Nat) (k : Nat) (p : Player)
    (h : getPlayer g k = some p) :
    ∃ s, getPlayer (eliminate_player g e) k = some { p with status := s } := by
  unfold eliminate_player
  cases he : getPlayer g e with
  | none => exact ⟨p.status, h⟩
  | some pl =>
    dsimp only
    have step1 : ∃ s1, getPlayer (setPlayer g e
        (fun q => { q with status := StatusField.enum .ELIMINATED })) k =
        some { p with status := s1 } := by
      by_cases hke : k = e
      · subst hke
        exact ⟨StatusField.enum .ELIMINATED, getPlayer_setPlayer_self _ _ _ _ h⟩
      · refine ⟨p.status, ?_⟩
        rw [getPlayer_setPlayer_other _ _ _ _ hke]
        exact h
    obtain ⟨s1, hs1⟩ := step1
    have hfold : getPlayer (pl.territories.foldl
        (fun acc c => setHex acc c (fun cell => { cell with owner := none }))
        (setPlayer g e (fun q => { q with status := StatusField.enum .ELIMINATED }))) k =
        some { p with status := s1 } := by
      rw [getPlayer_same_players (players_foldl_setHex _ _ _)]
      exact hs1
    split
    · obtain ⟨s2, hs2⟩ := getPlayer_declare_frame _ _ false k _ hfold
      exact ⟨s2, hs2⟩
    · exact ⟨s1, hfold⟩
    · exact ⟨s1, hfold⟩

lemma action_attack_success (g : Game) (pid tid : Nat) (data : ActionData)
    (atk tgt : Player)
    (hp : getPlayer g pid = some atk) (ht : data.target_player = some tid)
    (htgt : getPlayer g tid = some tgt)
    (halive : tgt.status = StatusField.enum .ALIVE)
    (hadj : is_adjacent atk.position tgt.position = true)
    (hdef : tgt.defending = false)
    (hen : ¬ atk.energy < 4) :
    action_attack_player g pid data =
      (let total_damage := atk.attack_power
       let actual_damage := max 0 (total_damage - tgt.shield - tgt.defense_power)
       let stolen := if actual_damage > 0 then min 3 tgt.energy else 0
       let newAtkEnergy :=
         if actual_damage > 0 then min atk.max_energy (atk.energy - 4 + stolen)
         else atk.energy - 4
       let newHealth := tgt.health - actual_damage
       let g1 := setPlayer g pid (fun p => { p with energy := newAtkEnergy })
       let g2 := setPlayer g1 tid (fun p =>
         { p with shield := max 0 (p.shield - total_damage),
                  health := p.health - actual_damage,
                  energy := p.energy - stolen })
       if newHealth ≤ 0 then
         let g3 := eliminate_player g2 tid
         let progress_stolen := tgt.ctf_progress * (3 / 10 : ℚ)
         let g4 := setPlayer g3 pid (fun p =>
           { p with kills := p.kills + 1,
                    ctf_progress := min 100 (p.ctf_progress + progress_stolen) })
         Except.ok ({ action := some ("attack_player"), success := true,
                      damage_dealt := some actual_damage,
                      energy_stolen := some stolen,
                      target_health := some newHealth,
                      attacker_energy := some newAtkEnergy,
                      eliminated := true,
                      progress_stolen := some progress_stolen }, g4)
       else
         Except.ok ({ action := some ("attack_player"), success := true,
                      damage_dealt := some actual_damage,
                      energy_stolen := some stolen,
                      target_health := some newHealth,
                      attacker_energy := some newAtkEnergy,
                      eliminated := false,
                      progress_stolen := some 0 }, g2)) := by
  unfold action_attack_player
  rw [hp, ht]
  dsimp only
  rw [htgt]
  dsimp only
  rw [if_neg (by simp [halive]), if_neg (by simp [hadj]), if_neg (by simp [hdef]),
    if_neg hen]

lemma map_proj_setPlayer_comp {α : Type} (φ : Player → α) (op : α → α)
    (g : Game) (pid : Nat) (f : Player → Player) (k : Nat)
    (hf : ∀ q, φ (f q) = op (φ q)) :
    (getPlayer (setPlayer g pid f) k).map φ =
      if k = pid then ((getPlayer g k).map φ).map op else (getPlayer g k).map φ := by
  rw [getPlayer_setPlayer]
  by_cases hk : k = pid
  · cases getPlayer g k <;> simp [hk, hf]
  · cases getPlayer g k <;> simp [hk]

lemma map_proj_setPlayer_untouched {α : Type} (φ : Player → α)
    (g : Game) (pid : Nat) (f : Player → Player) (k : Nat)
    (hf : ∀ q, φ (f q) = φ q) :
    (getPlayer (setPlayer g pid f) k).map φ = (getPlayer g k).map φ := by
  rw [getPlayer_setPlayer]
  cases getPlayer g k
  · rfl
  · by_cases hk : k = pid <;> simp [hk, hf]

lemma unlock3_take (pool : List String) (np : ℚ) (k : Nat)
    (hlen : pool.length = 3) (hk : k ≤ 3) :
    ∃ k', (unlockStep pool np 75 2 (unlockStep pool np 50 1
      (unlockStep pool np 25 0 (pool.take k, [])))).1 = pool.take k' ∧
      k ≤ k' ∧ k' ≤ 3 ∧ (k < k' → 25 * (k' : ℚ) ≤ np) := by
  rcases pool with _ | ⟨a, _ | ⟨b, _ | ⟨c, _ | rest⟩⟩⟩ <;> simp_all
  interval_cases k
  · by_cases h25 : np ≥ 25
    · by_cases h50 : np ≥ 50
      · by_cases h75 : np ≥ 75
        · exact ⟨3, by simp [unlockStep, h25, h50, h75], by omega, by omega,
            fun _ => by push_cast; linarith⟩
        · exact ⟨2, by simp [unlockStep, h25, h50, h75], by omega, by omega,
            fun _ => by push_cast; linarith⟩
      · exact ⟨1, by simp [unlockStep, h25, h50], by omega, by omega,
          fun _ => by push_cast; linarith⟩
    · exact ⟨0, by simp [unlockStep, h25], by omega, by omega,
        fun h => absurd h (lt_irrefl 0)⟩
  · by_cases h50 : np ≥ 50
    · by_cases h75 : np ≥ 75
      · exact ⟨3, by simp [unlockStep, h50, h75], by omega, by omega,
          fun _ => by push_cast; linarith⟩
      · exact ⟨2, by simp [unlockStep, h50, h75], by omega, by omega,
          fun _ => by push_cast; linarith⟩
    · exact ⟨1, by simp [unlockStep, h50], by omega, by omega,
        fun h => absurd h (lt_irrefl 1)⟩
  · by_cases h75 : np ≥ 75
    · exact ⟨3, by simp [unlockStep, h75], by omega, by omega,
        fun _ => by push_cast; linarith⟩
    · exact ⟨2, by simp [unlockStep, h75], by omega, by omega,
        fun h => absurd h (lt_irrefl 2)⟩
  · exact ⟨3, by simp [unlockStep], by omega, by omega,
      fun h => absurd h (lt_irrefl 3)⟩

lemma unlock3_take' (pool : List String) (np : ℚ) (k : Nat) (l : List String)
    (hlen : pool.length = 3) (hk : k ≤ 3) (hl : l = pool.take k) :
    ∃ k', (unlockStep pool np 75 2 (unlockStep pool np 50 1
      (unlockStep pool np 25 0 (l, [])))).1 = pool.take k' ∧ k ≤ k' ∧ k' ≤ 3 ∧
      (k < k' → 25 * (k' : ℚ) ≤ np) := by
  subst hl
  exact unlock3_take pool np k hlen hk

lemma action_steal_success (g : Game) (pid tid : Nat) (data : ActionData) (env : Env)
    (atk tgt : Player)
    (hp : getPlayer g pid = some atk) (ht : data.target_player = some tid)
    (htgt : getPlayer g tid = some tgt)
    (halive : tgt.status = StatusField.enum .ALIVE)
    (hadj : is_adjacent atk.position tgt.position = true)
    (hen : ¬ atk.energy < 6) (hweak : ¬ tgt.health > 50) :
    action_steal_progress g pid data env =
      (let stolen_progress := tgt.ctf_progress * (2 / 5 : ℚ)
       let g1 := setPlayer g pid (fun p => { p with energy := p.energy - 6 })
       let g2 := setPlayer g1 tid (fun p =>
         { p with ctf_progress := max 0 (p.ctf_progress - stolen_progress) })
       let g3 := setPlayer g2 pid (fun p =>
         { p with ctf_progress := min 100 (p.ctf_progress + stolen_progress) })
       let doSteal := env.stealRoll ∧ tgt.ctf_hints.length > 0
       let stolen_hint := tgt.ctf_hints.getLastD ("")
       let hints_stolen :=
         if doSteal ∧ stolen_hint ∉ atk.ctf_hints then [stolen_hint] else []
       let g4 := if doSteal then
           setPlayer g3 tid (fun p => { p with ctf_hints := p.ctf_hints.dropLast })
         else g3
       let g5 := if doSteal ∧ stolen_hint ∉ atk.ctf_hints then
           setPlayer g4 pid (fun p => { p with ctf_hints := p.ctf_hints ++ [stolen_hint] })
         else g4
       let g6 := setPlayer g5 tid (fun p => { p with health := p.health - 15 })
       Except.ok ({ action := some ("steal_progress"), success := true,
                    progress_stolen := some stolen_progress,
                    hints_stolen := hints_stolen,
                    ctf_progress := some (min 100 (atk.ctf_progress + stolen_progress)),
                    target_health := some (tgt.health - 15),
                    energy := some (atk.energy - 6) }, g6)) := by
  unfold action_steal_progress
  rw [hp, ht]
  dsimp only
  rw [htgt]
  dsimp only
  rw [if_neg (by simp [halive]), if_neg (by simp [hadj]), if_neg hen, if_neg hweak]

lemma owner_none_preserved (l : List Coord) :
    ∀ (g : Game) (c : Coord),
      (∀ cell, lookupHex g c = some cell → cell.owner = none) →
      ∀ cell, lookupHex (l.foldl (fun acc c0 => setHex acc c0
        (fun cl => { cl with owner := none })) g) c = some cell → cell.owner = none := by
  induction l with
  | nil => exact fun g c h => h
  | cons x rest ih =>
    intro g c h cell hcell
    simp only [List.foldl_cons] at hcell
    refine ih (setHex g x _) c ?_ cell hcell
    intro cell0 hc0
    rw [lookupHex_setHex] at hc0
    cases hlk : lookupHex g c with
    | none =>
      rw [hlk] at hc0
      cases hc0
    | some v =>
      rw [hlk] at hc0
      simp only [Option.map_some'] at hc0
      injection hc0 with hc0
      subst hc0
      by_cases hcx : c = x
      · simp [hcx]
      · simp only [if_neg hcx]
        exact h v hlk

lemma foldl_release_mem (l : List Coord) :
    ∀ (g : Game) (c : Coord), c ∈ l →
      ∀ cell, lookupHex (l.foldl (fun acc c0 => setHex acc c0
        (fun cl => { cl with owner := none })) g) c = some cell → cell.owner = none := by
  induction l with
  | nil =>
    intro g c hc
    cases hc
  | cons x rest ih =>
    intro g c hc cell hcell
    simp only [List.foldl_cons] at hcell
    rcases List.mem_cons.mp hc with h | h
    · subst h
      refine owner_none_preserved rest (setHex g c _) c ?_ cell hcell
      intro cell0 hc0
      rw [lookupHex_setHex] at hc0
      cases hlk : lookupHex g c with
      | none =>
        rw [hlk] at hc0
        cases hc0
      | some v =>
        rw [hlk] at hc0
        simp only [Option.map_some'] at hc0
        injection hc0 with hc0
        subst hc0
        simp
    · exact ih (setHex g x _) c h cell hcell

lemma pres_action_move (g : Game) (pid : Nat) (data : ActionData) (r : ActRes)
    (g' : Game) (h : action_move g pid data = Except.ok (r, g')) : Pres g g' := by
  unfold action_move at h
  dsimp only at h
  split at h
  · exact absurd h (by simp)
  · split at h
    · obtain ⟨h1, h2⟩ := Prod.mk.injEq .. ▸ (Except.ok.injEq .. ▸ h)
      subst h2
      exact pres_refl g
    · split at h
      · split at h
        · obtain ⟨h1, h2⟩ := Prod.mk.injEq .. ▸ (Except.ok.injEq .. ▸ h)
          subst h2
          refine pres_trans (pres_setPlayer g pid _ ?_) (pres_setPlayer _ pid _ ?_) <;>
            exact fun q _ => keepH_same rfl rfl
        · obtain ⟨h1, h2⟩ := Prod.mk.injEq .. ▸ (Except.ok.injEq .. ▸ h)
          subst h2
          refine pres_setPlayer g pid _ ?_
          exact fun q _ => keepH_same rfl rfl
      · split at h
        · split at h
          · obtain ⟨h1, h2⟩ := Prod.mk.injEq .. ▸ (Except.ok.injEq .. ▸ h)
            subst h2
            refine pres_trans (pres_setPlayer g pid _ ?_) (pres_setPlayer _ pid _ ?_) <;>
              exact fun q _ => keepH_same rfl rfl
          · obtain ⟨h1, h2⟩ := Prod.mk.injEq .. ▸ (Except.ok.injEq .. ▸ h)
            subst h2
            refine pres_setPlayer g pid _ ?_
            exact fun q _ => keepH_same rfl rfl
        · split at h
          · obtain ⟨h1, h2⟩ := Prod.mk.injEq .. ▸ (Except.ok.injEq .. ▸ h)
            subst h2
            exact pres_refl g
          · split at h
            · exact absurd h (by simp)
            · obtain ⟨h1, h2⟩ := Prod.mk.injEq .. ▸ (Except.ok.injEq .. ▸ h)
              subst h2
              split
              · refine pres_trans (pres_trans (pres_trans
                  (pres_setPlayer g pid _ ?_)
                  (pres_update_vision _ pid))
                  (pres_setPlayer _ pid _ ?_))
                  (pres_setHex _ _ _ ?_)
                · exact fun q _ => keepH_same rfl rfl
                · exact fun q _ => keepH_same rfl rfl
                · exact fun cl _ => rfl
              · refine pres_trans (pres_setPlayer g pid _ ?_) (pres_update_vision _ pid)
                exact fun q _ => keepH_same rfl rfl

lemma presW_refl (g : Game) : PresW g g := pres_presW (pres_refl g)

lemma presW_ite {c : Prop} [Decidable c] {g a b : Game}
    (ha : PresW g a) (hb : PresW g b) : PresW g (if c then a else b) := by
  split
  · exact ha
  · exact hb

lemma presW_setPlayer_step {g g' : Game} (h : PresW g g') (pid : Nat)
    (f : Player → Player)
    (hf : ∀ p, getPlayer g' pid = some p → PlayerKeep p (f p)) :
    PresW g (setPlayer g' pid f) :=
  presW_trans h (presW_setPlayer g' pid f hf)

lemma pres_action_attack (g : Game) (pid : Nat) (data : ActionData) (r : ActRes)
    (g' : Game) (h : action_attack_player g pid data = Except.ok (r, g')) :
    Pres g g' := by
  unfold action_attack_player at h
  dsimp only at h
  split at h
  · exact absurd h (by simp)
  · split at h
    · obtain ⟨h1, h2⟩ := Prod.mk.injEq .. ▸ (Except.ok.injEq .. ▸ h)
      subst h2
      exact pres_refl g
    · split at h
      · obtain ⟨h1, h2⟩ := Prod.mk.injEq .. ▸ (Except.ok.injEq .. ▸ h)
        subst h2
        exact pres_refl g
      · split at h
        · obtain ⟨h1, h2⟩ := Prod.mk.injEq .. ▸ (Except.ok.injEq .. ▸ h)
          subst h2
          exact pres_refl g
        · split at h
          · obtain ⟨h1, h2⟩ := Prod.mk.injEq .. ▸ (Except.ok.injEq .. ▸ h)
            subst h2
            exact pres_refl g
          · split at h
            · obtain ⟨h1, h2⟩ := Prod.mk.injEq .. ▸ (Except.ok.injEq .. ▸ h)
              subst h2
              exact pres_refl g
            · split at h
              · obtain ⟨h1, h2⟩ := Prod.mk.injEq .. ▸ (Except.ok.injEq .. ▸ h)
                subst h2
                exact pres_refl g
              · split at h
                · obtain ⟨h1, h2⟩ := Prod.mk.injEq .. ▸ (Except.ok.injEq .. ▸ h)
                  subst h2
                  refine pres_trans (pres_trans (pres_trans
                    (pres_setPlayer g pid _ ?_)
                    (pres_setPlayer _ _ _ ?_))
                    (pres_eliminate _ _))
                    (pres_setPlayer _ pid _ ?_) <;>
                    exact fun q _ => keepH_same rfl rfl
                · obtain ⟨h1, h2⟩ := Prod.mk.injEq .. ▸ (Except.ok.injEq .. ▸ h)
                  subst h2
                  refine pres_trans (pres_setPlayer g pid _ ?_) (pres_setPlayer _ _ _ ?_) <;>
                    exact fun q _ => keepH_same rfl rfl

lemma unlockStep_fst_extends (pool : List String) (pr th : ℚ) (rk : Nat)
    (st : List String × List String) :
    ∃ t, (unlockStep pool pr th rk st).1 = st.1 ++ t := by
  unfold unlockStep
  split
  · exact ⟨[pool.getD rk ("")], rfl⟩
  · exact ⟨[], (List.append_nil _).symm⟩

lemma unlock3_extends (pool : List String) (pr : ℚ) (st0 : List String × List String) :
    ∃ t, (unlockStep pool pr 75 2 (unlockStep pool pr 50 1
      (unlockStep pool pr 25 0 st0))).1 = st0.1 ++ t := by
  obtain ⟨t1, h1⟩ := unlockStep_fst_extends pool pr 25 0 st0
  obtain ⟨t2, h2⟩ := unlockStep_fst_extends pool pr 50 1 (unlockStep pool pr 25 0 st0)
  obtain ⟨t3, h3⟩ := unlockStep_fst_extends pool pr 75 2
    (unlockStep pool pr 50 1 (unlockStep pool pr 25 0 st0))
  exact ⟨t1 ++ t2 ++ t3, by rw [h3, h2, h1]; simp⟩

lemma pres_action_solve (g : Game) (pid : Nat) (data : ActionData) (env : Env)
    (r : ActRes) (g' : Game)
    (h : action_solve_ctf g pid data env = Except.ok (r, g')) : Pres g g' := by
  unfold action_solve_ctf at h
  dsimp only at h
  split at h
  · exact absurd h (by simp)
  case _ player hp =>
    split at h
    · obtain ⟨h1, h2⟩ := Prod.mk.injEq .. ▸ (Except.ok.injEq .. ▸ h)
      subst h2
      exact pres_refl g
    · split at h
      · obtain ⟨h1, h2⟩ := Prod.mk.injEq .. ▸ (Except.ok.injEq .. ▸ h)
        subst h2
        refine pres_trans (pres_setPlayer g pid _ ?_) (pres_declare_winner _ pid false)
        exact fun q _ => keepH_same rfl rfl
      · obtain ⟨h1, h2⟩ := Prod.mk.injEq .. ▸ (Except.ok.injEq .. ▸ h)
        subst h2
        refine pres_trans (pres_setPlayer g pid _ ?_) (pres_setPlayer _ pid _ ?_)
        · exact fun q _ => keepH_same rfl rfl
        · intro q hq
          refine ⟨fun hd => hd, ?_⟩
          have hq0 := getPlayer_setPlayer_self g pid
            (fun p => { p with energy := p.energy - 5, ctf_attempts := p.ctf_attempts + 1 })
            player hp
          rw [hq0] at hq
          injection hq with hq1
          subst hq1
          exact unlock3_extends g.ctf_hints_pool _ (player.ctf_hints, [])

lemma pres_action_claim (g : Game) (pid : Nat) (r : ActRes) (g' : Game)
    (h : action_claim_territory g pid = Except.ok (r, g')) : Pres g g' := by
  unfold action_claim_territory at h
  dsimp only at h
  split at h
  · exact absurd h (by simp)
  · split at h
    · exact absurd h (by simp)
    · split at h
      · split at h
        · split at h
          · split at h
            · exact absurd h (by simp)
            case _ mr g1 heq =>
              obtain ⟨h1, h2⟩ := Prod.mk.injEq .. ▸ (Except.ok.injEq .. ▸ h)
              subst h2
              exact pres_action_move _ _ _ _ _ heq
          · obtain ⟨h1, h2⟩ := Prod.mk.injEq .. ▸ (Except.ok.injEq .. ▸ h)
            subst h2
            exact pres_refl g
        · obtain ⟨h1, h2⟩ := Prod.mk.injEq .. ▸ (Except.ok.injEq .. ▸ h)
          subst h2
          exact pres_refl g
      · split at h
        · obtain ⟨h1, h2⟩ := Prod.mk.injEq .. ▸ (Except.ok.injEq .. ▸ h)
          subst h2
          exact pres_refl g
        · split at h
          · obtain ⟨h1, h2⟩ := Prod.mk.injEq .. ▸ (Except.ok.injEq .. ▸ h)
            subst h2
            exact pres_refl g
          · obtain ⟨h1, h2⟩ := Prod.mk.injEq .. ▸ (Except.ok.injEq .. ▸ h)
            subst h2
            split
            · refine pres_trans (pres_trans (pres_trans
                (pres_setPlayer g pid _ ?_)
                (pres_setHex _ _ _ ?_))
                (pres_setPlayer _ pid _ ?_))
                (pres_setPlayer _ pid _ ?_)
              · exact fun q _ => keepH_same rfl rfl
              · exact fun cl hc => hc
              · exact fun q _ => keepH_same rfl rfl
              · exact fun q _ => keepH_same rfl rfl
            · refine pres_trans (pres_trans
                (pres_setPlayer g pid _ ?_)
                (pres_setHex _ _ _ ?_))
                (pres_setPlayer _ pid _ ?_)
              · exact fun q _ => keepH_same rfl rfl
              · exact fun cl hc => hc
              · exact fun q _ => keepH_same rfl rfl

lemma pres_rest_normal (g : Game) (pid : Nat) (player : Player) (r : ActRes)
    (g' : Game) (h : rest_normal g pid player = Except.ok (r, g')) : Pres g g' := by
  unfold rest_normal at h
  dsimp only at h
  split at h
  · exact absurd h (by simp)
  · obtain ⟨h1, h2⟩ := Prod.mk.injEq .. ▸ (Except.ok.injEq .. ▸ h)
    subst h2
    refine pres_setPlayer g pid _ ?_
    exact fun q _ => keepH_same rfl rfl

lemma pres_action_rest (g : Game) (pid : Nat) (r : ActRes) (g' : Game)
    (h : action_rest g pid = Except.ok (r, g')) : Pres g g' := by
  unfold action_rest at h
  split at h
  · exact absurd h (by simp)
  · split at h
    · split at h
      · split at h
        · split at h
          · exact absurd h (by simp)
          case _ mr g1 heq =>
            obtain ⟨h1, h2⟩ := Prod.mk.injEq .. ▸ (Except.ok.injEq .. ▸ h)
            subst h2
            exact pres_action_move _ _ _ _ _ heq
        · exact pres_rest_normal _ _ _ _ _ h
      · exact pres_rest_normal _ _ _ _ _ h
    · exact pres_rest_normal _ _ _ _ _ h

lemma pres_scout_normal (g : Game) (pid : Nat) (player : Player) (r : ActRes)
    (g' : Game) (h : scout_normal g pid player = Except.ok (r, g')) : Pres g g' := by
  unfold scout_normal at h
  dsimp only at h
  obtain ⟨h1, h2⟩ := Prod.mk.injEq .. ▸ (Except.ok.injEq .. ▸ h)
  subst h2
  refine pres_trans (pres_trans (pres_trans (pres_trans (pres_trans
    (pres_setPlayer g pid _ ?_)
    (pres_setPlayer _ pid _ ?_))
    (pres_update_vision _ pid))
    (pres_setPlayer _ pid _ ?_))
    (pres_update_vision _ pid))
    (pres_setPlayer _ pid _ ?_) <;>
    exact fun q _ => keepH_same rfl rfl

lemma pres_action_scout (g : Game) (pid : Nat) (r : ActRes) (g' : Game)
    (h : action_scout g pid = Except.ok (r, g')) : Pres g g' := by
  unfold action_scout at h
  dsimp only at h
  split at h
  · exact absurd h (by simp)
  · split at h
    · obtain ⟨h1, h2⟩ := Prod.mk.injEq .. ▸ (Except.ok.injEq .. ▸ h)
      subst h2
      exact pres_refl g
    · split at h
      · split at h
        · split at h
          · split at h
            · exact absurd h (by simp)
            case _ mr g1 heq =>
              obtain ⟨h1, h2⟩ := Prod.mk.injEq .. ▸ (Except.ok.injEq .. ▸ h)
              subst h2
              exact pres_action_move _ _ _ _ _ heq
          · exact pres_scout_normal _ _ _ _ _ h
        · exact pres_scout_normal _ _ _ _ _ h
      · exact pres_scout_normal _ _ _ _ _ h

lemma pres_action_defend (g : Game) (pid : Nat) (r : ActRes) (g' : Game)
    (h : action_defend g pid = Except.ok (r, g')) : Pres g g' := by
  unfold action_defend at h
  dsimp only at h
  split at h
  · exact absurd h (by simp)
  · obtain ⟨h1, h2⟩ := Prod.mk.injEq .. ▸ (Except.ok.injEq .. ▸ h)
    subst h2
    refine pres_setPlayer g pid _ ?_
    exact fun q _ => ⟨fun _ => rfl, [], by simp⟩

lemma presW_action_steal (g : Game) (pid : Nat) (data : ActionData) (env : Env)
    (r : ActRes) (g' : Game)
    (h : action_steal_progress g pid data env = Except.ok (r, g')) : PresW g g' := by
  unfold action_steal_progress at h
  dsimp only at h
  split at h
  · exact absurd h (by simp)
  · split at h
    · obtain ⟨h1, h2⟩ := Prod.mk.injEq .. ▸ (Except.ok.injEq .. ▸ h)
      subst h2
      exact pres_presW (pres_refl g)
    · split at h
      · obtain ⟨h1, h2⟩ := Prod.mk.injEq .. ▸ (Except.ok.injEq .. ▸ h)
        subst h2
        exact pres_presW (pres_refl g)
      · split at h
        · obtain ⟨h1, h2⟩ := Prod.mk.injEq .. ▸ (Except.ok.injEq .. ▸ h)
          subst h2
          exact pres_presW (pres_refl g)
        · split at h
          · obtain ⟨h1, h2⟩ := Prod.mk.injEq .. ▸ (Except.ok.injEq .. ▸ h)
            subst h2
            exact pres_presW (pres_refl g)
          · split at h
            · obtain ⟨h1, h2⟩ := Prod.mk.injEq .. ▸ (Except.ok.injEq .. ▸ h)
              subst h2
              exact pres_presW (pres_refl g)
            · split at h
              · obtain ⟨h1, h2⟩ := Prod.mk.injEq .. ▸ (Except.ok.injEq .. ▸ h)
                subst h2
                exact pres_presW (pres_refl g)
              · obtain ⟨h1, h2⟩ := Prod.mk.injEq .. ▸ (Except.ok.injEq .. ▸ h)
                subst h2
                refine presW_setPlayer_step ?_ _ _ (fun q _ hd => hd)
                refine presW_ite ?_ ?_
                · refine presW_setPlayer_step ?_ _ _ (fun q _ hd => hd)
                  refine presW_ite ?_ ?_
                  · refine presW_setPlayer_step ?_ _ _ (fun q _ hd => hd)
                    refine presW_setPlayer_step (presW_setPlayer_step
                      (presW_setPlayer_step (presW_refl g) _ _ ?_)
                      _ _ ?_) _ _ ?_ <;> exact fun q _ hd => hd
                  · refine presW_setPlayer_step (presW_setPlayer_step
                      (presW_setPlayer_step (presW_refl g) _ _ ?_)
                      _ _ ?_) _ _ ?_ <;> exact fun q _ hd => hd
                · refine presW_ite ?_ ?_
                  · refine presW_setPlayer_step ?_ _ _ (fun q _ hd => hd)
                    refine presW_setPlayer_step (presW_setPlayer_step
                      (presW_setPlayer_step (presW_refl g) _ _ ?_)
                      _ _ ?_) _ _ ?_ <;> exact fun q _ hd => hd
                  · refine presW_setPlayer_step (presW_setPlayer_step
                      (presW_setPlayer_step (presW_refl g) _ _ ?_)
                      _ _ ?_) _ _ ?_ <;> exact fun q _ hd => hd

lemma presW_dispatch (g : Game) (pid : Nat) (action : ActionType) (data : ActionData)
    (env : Env) (r : ActRes) (g' : Game)
    (h : dispatch g pid action data env = Except.ok (r, g')) : PresW g g' := by
  cases action <;> dsimp only [dispatch] at h
  · exact pres_presW (pres_action_move _ _ _ _ _ h)
  · exact pres_presW (pres_action_attack _ _ _ _ _ h)
  · exact pres_presW (pres_action_solve _ _ _ _ _ _ h)
  · exact pres_presW (pres_action_claim _ _ _ _ h)
  · exact pres_presW (pres_action_rest _ _ _ _ h)
  · exact pres_presW (pres_action_scout _ _ _ _ h)
  · exact pres_presW (pres_action_defend _ _ _ _ h)
  · exact presW_action_steal _ _ _ _ _ _ h

lemma pres_dispatch (g : Game) (pid : Nat) (action : ActionType) (data : ActionData)
    (env : Env) (r : ActRes) (g' : Game)
    (hne : action ≠ ActionType.STEAL_PROGRESS)
    (h : dispatch g pid action data env = Except.ok (r, g')) : Pres g g' := by
  cases action <;> dsimp only [dispatch] at h
  · exact pres_action_move _ _ _ _ _ h
  · exact pres_action_attack _ _ _ _ _ h
  · exact pres_action_solve _ _ _ _ _ _ h
  · exact pres_action_claim _ _ _ _ h
  · exact pres_action_rest _ _ _ _ h
  · exact pres_action_scout _ _ _ _ h
  · exact pres_action_defend _ _ _ _ h
  · exact absurd rfl hne

lemma pres_execute_action (g : Game) (pid : Nat) (action : ActionType)
    (data : ActionData) (env : Env) (r : ActRes) (g' : Game)
    (hne : action ≠ ActionType.STEAL_PROGRESS)
    (h : execute_action g pid action data env = Except.ok (r, g')) : Pres g g' := by
  unfold execute_action at h
  dsimp only at h
  split at h
  · exact absurd h (by simp)
  · split at h
    · obtain ⟨h1, h2⟩ := Prod.mk.injEq .. ▸ (Except.ok.injEq .. ▸ h)
      subst h2
      exact pres_refl g
    · split at h
      · exact absurd h (by simp)
      case _ result g1 heq =>
        split at h
        · exact absurd h (by simp)
        case _ p2 hp2 =>
          have hd := pres_dispatch g pid action data env result g1 hne heq
          split at h
          · split at h
            · exact absurd h (by simp)
            · split at h
              · obtain ⟨h1, h2⟩ := Prod.mk.injEq .. ▸ (Except.ok.injEq .. ▸ h)
                subst h2
                refine pres_trans (pres_trans hd (pres_setPlayer g1 pid _ ?_))
                  (pres_eliminate _ pid)
                exact fun q _ => keepH_same rfl rfl
              · obtain ⟨h1, h2⟩ := Prod.mk.injEq .. ▸ (Except.ok.injEq .. ▸ h)
                subst h2
                refine pres_trans hd (pres_setPlayer g1 pid _ ?_)
                exact fun q _ => keepH_same rfl rfl
          · obtain ⟨h1, h2⟩ := Prod.mk.injEq .. ▸ (Except.ok.injEq .. ▸ h)
            subst h2
            refine pres_trans hd (pres_setPlayer g1 pid _ ?_)
            exact fun q _ => keepH_same rfl rfl

lemma presW_execute_action (g : Game) (pid : Nat) (action : ActionType)
    (data : ActionData) (env : Env) (r : ActRes) (g' : Game)
    (h : execute_action g pid action data env = Except.ok (r, g')) : PresW g g' := by
  unfold execute_action at h
  dsimp only at h
  split at h
  · exact absurd h (by simp)
  · split at h
    · obtain ⟨h1, h2⟩ := Prod.mk.injEq .. ▸ (Except.ok.injEq .. ▸ h)
      subst h2
      exact presW_refl g
    · split at h
      · exact absurd h (by simp)
      case _ result g1 heq =>
        split at h
        · exact absurd h (by simp)
        case _ p2 hp2 =>
          have hd := presW_dispatch g pid action data env result g1 heq
          split at h
          · split at h
            · exact absurd h (by simp)
            · split at h
              · obtain ⟨h1, h2⟩ := Prod.mk.injEq .. ▸ (Except.ok.injEq .. ▸ h)
                subst h2
                refine presW_trans (presW_setPlayer_step hd pid _ ?_)
                  (pres_presW (pres_eliminate _ pid))
                exact fun q _ hd0 => hd0
              · obtain ⟨h1, h2⟩ := Prod.mk.injEq .. ▸ (Except.ok.injEq .. ▸ h)
                subst h2
                exact presW_setPlayer_step hd pid _ (fun q _ hd0 => hd0)
          · obtain ⟨h1, h2⟩ := Prod.mk.injEq .. ▸ (Except.ok.injEq .. ▸ h)
            subst h2
            exact presW_setPlayer_step hd pid _ (fun q _ hd0 => hd0)

lemma pres_turn_tail (g2 : Game) (pid : Nat) (X : List HistEntry) :
    Pres g2 (check_eliminations
      { (setPlayer { g2 with action_history := X } pid
          (fun p => { p with actions_taken := p.actions_taken + 1 })) with
        turn_number := (setPlayer { g2 with action_history := X } pid
          (fun p => { p with actions_taken := p.actions_taken + 1 })).turn_number + 1 }) := by
  have s1 : Pres g2 { g2 with action_history := X } := pres_of_eq rfl rfl
  have s2 := pres_setPlayer { g2 with action_history := X } pid
    (fun p => { p with actions_taken := p.actions_taken + 1 })
    (fun q _ => keepH_same rfl rfl)
  refine pres_trans (pres_trans (pres_trans s1 s2) ?_) (pres_check_elims _)
  exact pres_of_eq rfl rfl

lemma pres_execute_turn (g : Game) (pid : Nat) (action : ActionType)
    (data : ActionData) (env : Env) (r : ActRes) (g' : Game)
    (hne : action ≠ ActionType.STEAL_PROGRESS)
    (h : execute_turn g pid action data env = Except.ok (r, g')) : Pres g g' := by
  unfold execute_turn at h
  dsimp only at h
  split at h
  · obtain ⟨h1, h2⟩ := Prod.mk.injEq .. ▸ (Except.ok.injEq .. ▸ h)
    subst h2
    exact pres_refl g
  · split at h
    · obtain ⟨h1, h2⟩ := Prod.mk.injEq .. ▸ (Except.ok.injEq .. ▸ h)
      subst h2
      exact pres_refl g
    · split at h
      · obtain ⟨h1, h2⟩ := Prod.mk.injEq .. ▸ (Except.ok.injEq .. ▸ h)
        subst h2
        exact pres_refl g
      · split at h
        · unfold timeout_elimination at h
          obtain ⟨h1, h2⟩ := Prod.mk.injEq .. ▸ (Except.ok.injEq .. ▸ h)
          subst h2
          exact pres_eliminate g pid
        · split at h
          · obtain ⟨h1, h2⟩ := Prod.mk.injEq .. ▸ (Except.ok.injEq .. ▸ h)
            subst h2
            exact pres_refl g
          · split at h
            · exact absurd h (by simp)
            case _ result0 g1 heq =>
              obtain ⟨h1, h2⟩ := Prod.mk.injEq .. ▸ (Except.ok.injEq .. ▸ h)
              subst h2
              exact pres_trans
                (pres_trans (pres_execute_action g pid action data env result0 g1 hne heq)
                  (pres_idle_tax g1 pid _))
                (pres_turn_tail _ pid _)

lemma presW_execute_turn (g : Game) (pid : Nat) (action : ActionType)
    (data : ActionData) (env : Env) (r : ActRes) (g' : Game)
    (h : execute_turn g pid action data env = Except.ok (r, g')) : PresW g g' := by
  unfold execute_turn at h
  dsimp only at h
  split at h
  · obtain ⟨h1, h2⟩ := Prod.mk.injEq .. ▸ (Except.ok.injEq .. ▸ h)
    subst h2
    exact presW_refl g
  · split at h
    · obtain ⟨h1, h2⟩ := Prod.mk.injEq .. ▸ (Except.ok.injEq .. ▸ h)
      subst h2
      exact presW_refl g
    · split at h
      · obtain ⟨h1, h2⟩ := Prod.mk.injEq .. ▸ (Except.ok.injEq .. ▸ h)
        subst h2
        exact presW_refl g
      · split at h
        · unfold timeout_elimination at h
          obtain ⟨h1, h2⟩ := Prod.mk.injEq .. ▸ (Except.ok.injEq .. ▸ h)
          subst h2
          exact pres_presW (pres_eliminate g pid)
        · split at h
          · obtain ⟨h1, h2⟩ := Prod.mk.injEq .. ▸ (Except.ok.injEq .. ▸ h)
            subst h2
            exact presW_refl g
          · split at h
            · exact absurd h (by simp)
            case _ result0 g1 heq =>
              obtain ⟨h1, h2⟩ := Prod.mk.injEq .. ▸ (Except.ok.injEq .. ▸ h)
              subst h2
              exact presW_trans
                (presW_trans (presW_execute_action g pid action data env result0 g1 heq)
                  (pres_presW (pres_idle_tax g1 pid _)))
                (pres_presW (pres_turn_tail _ pid _))

end Lemmas

lemma foldl_best (f : Nat → ℚ) :
    ∀ (l : List Nat) (a : Nat),
      (l.foldl (fun best pid => if f pid > f best then pid else best) a) ∈ a :: l ∧
      (∀ x ∈ a :: l,
        f x ≤ f (l.foldl (fun best pid => if f pid > f best then pid else best) a)) ∧
      ∃ l1 l2, a :: l =
          l1 ++ (l.foldl (fun best pid => if f pid > f best then pid else best) a) :: l2 ∧
        ∀ x ∈ l1,
          f x < f (l.foldl (fun best pid => if f pid > f best then pid else best) a) := by
  intro l
  induction l with
  | nil =>
    intro a
    refine ⟨List.mem_cons_self a [], ?_, [], [], rfl, by simp⟩
    intro x hx
    rcases List.mem_cons.mp hx with h | h
    · subst h
      exact le_refl _
    · exact absurd h (List.not_mem_nil x)
  | cons x xs ih =>
    intro a
    simp only [List.foldl_cons]
    by_cases hxa : f x > f a
    · rw [if_pos hxa]
      obtain ⟨hmem, hmax, l1, l2, hsplit, hstrict⟩ := ih x
      refine ⟨List.mem_cons_of_mem a hmem, ?_, a :: l1, l2, ?_, ?_⟩
      · intro y hy
        rcases List.mem_cons.mp hy with h | h
        · rw [h]
          exact le_trans (le_of_lt hxa) (hmax x (List.mem_cons_self _ _))
        · exact hmax y h
      · rw [List.cons_append, ← hsplit]
      · intro y hy
        rcases List.mem_cons.mp hy with h | h
        · rw [h]
          exact lt_of_lt_of_le hxa (hmax x (List.mem_cons_self _ _))
        · exact hstrict y h
    · rw [if_neg hxa]
      obtain ⟨hmem, hmax, l1, l2, hsplit, hstrict⟩ := ih a
      refine ⟨?_, ?_, ?_⟩
      · rcases List.mem_cons.mp hmem with hr | hr
        · rw [hr]
          exact List.mem_cons_self _ _
        · exact List.mem_cons_of_mem a (List.mem_cons_of_mem x hr)
      · intro y hy
        rcases List.mem_cons.mp hy with h | h
        · rw [h]
          exact hmax a (List.mem_cons_self _ _)
        · rcases List.mem_cons.mp h with h2 | h2
          · rw [h2]
            exact le_trans (not_lt.mp hxa) (hmax a (List.mem_cons_self _ _))
          · exact hmax y (List.mem_cons_of_mem a h2)
      · cases l1 with
        | nil =>
          simp only [List.nil_append] at hsplit
          injection hsplit with h1 h2
          refine ⟨[], x :: xs, ?_, by simp⟩
          rw [List.nil_append, ← h1]
        | cons b l1' =>
          rw [List.cons_append] at hsplit
          injection hsplit with h1 h2
          refine ⟨a :: x :: l1', l2, ?_, ?_⟩
          · rw [List.cons_append, List.cons_append, ← h2]
          · intro y hy
            have har : f a <
                f (xs.foldl (fun best pid => if f pid > f best then pid else best) a) := by
              have hb := hstrict b (List.mem_cons_self _ _)
              rwa [← h1] at hb
            rcases List.mem_cons.mp hy with h | h
            · rw [h]
              exact har
            · rcases List.mem_cons.mp h with h2' | h2'
              · rw [h2']
                exact lt_of_le_of_lt (not_lt.mp hxa) har
              · exact hstrict y (List.mem_cons_of_mem b h2')

/-- C3: the ranking function `_rank_on_timeout` does select, among the
alive players, the maximizer of the composite score, with ties broken in
favor of the first-seen player id (every alive player listed strictly
before the returned winner scores strictly less).  The bug lies elsewhere:
nothing ever invokes this ranking at round/time exhaustion. -/
theorem C3_timeout_ranking (g : Game) (w : Nat) (h : rank_on_timeout g = some w) :
    w ∈ get_alive_players g ∧
    (∀ pid ∈ get_alive_players g, scoreOf g pid ≤ scoreOf g w) ∧
    ∃ l1 l2, get_alive_players g = l1 ++ w :: l2 ∧
      ∀ pid ∈ l1, scoreOf g pid < scoreOf g w := by
  unfold rank_on_timeout at h
  split at h
  · exact absurd h (by simp)
  case _ a rest halive =>
    injection h with h
    subst h
    have hb := foldl_best (scoreOf g) rest a
    rw [halive]
    exact hb

/-- C3 witness: in the concrete snapshot `rankGame`, player 2 out-scores
player 1 and is returned; the ranking conclusions hold there. -/
theorem C3_timeout_ranking_witness :
    rank_on_timeout rankGame = some 2 ∧
    (2 ∈ get_alive_players rankGame ∧
     (∀ pid ∈ get_alive_players rankGame,
        scoreOf rankGame pid ≤ scoreOf rankGame 2) ∧
     ∃ l1 l2, get_alive_players rankGame = l1 ++ 2 :: l2 ∧
       ∀ pid ∈ l1, scoreOf rankGame pid < scoreOf rankGame 2) := by
  have hlt : scoreOf rankGame 1 < scoreOf rankGame 2 := by
    norm_num [scoreOf, getPlayer, rankGame, alookup, score_player, mkPlayer]
  have hrank : rank_on_timeout rankGame = some 2 := by
    show some (if scoreOf rankGame 2 > scoreOf rankGame 1 then 2 else 1) = some 2
    rw [if_pos hlt]
  exact ⟨hrank, C3_timeout_ranking rankGame 2 hrank⟩

/-- C9: moving onto an unconsumed RESOURCE cell grants the +3 bonus (capped
at maximum energy) and marks the cell consumed; moving onto a consumed
RESOURCE cell grants nothing; and the consumed mark survives every
subsequent turn of the match, so the bonus is granted exactly once. -/
theorem C9_resource_bonus_once :
    (∀ (g : Game) (pid : Nat) (data : ActionData) (p : Player) (t : Coord)
       (cell : Cell) (r : ActRes) (g' : Game),
       getPlayer g pid = some p → data.target = some t →
       is_adjacent p.position t = true → lookupHex g t = some cell →
       ¬ p.energy < 2 →
       action_move g pid data = Except.ok (r, g') →
       cell.type = HexType.RESOURCE → cell.bonus_consumed = false →
       (lookupHex g' t).map Cell.bonus_consumed = some true ∧
       (getPlayer g' pid).map Player.energy =
         some (min p.max_energy (p.energy - 2 + 3)) ∧
       r.success = true) ∧
    (∀ (g : Game) (pid : Nat) (data : ActionData) (p : Player) (t : Coord)
       (cell : Cell) (r : ActRes) (g' : Game),
       getPlayer g pid = some p → data.target = some t →
       is_adjacent p.position t = true → lookupHex g t = some cell →
       ¬ p.energy < 2 →
       action_move g pid data = Except.ok (r, g') →
       cell.type = HexType.RESOURCE → cell.bonus_consumed = true →
       (lookupHex g' t).map Cell.bonus_consumed = some true ∧
       (getPlayer g' pid).map Player.energy = some (p.energy - 2) ∧
       r.success = true) ∧
    (∀ (g : Game) (pid : Nat) (action : ActionType) (data : ActionData) (env : Env)
       (r : ActRes) (g' : Game) (c : Coord) (cell : Cell),
       execute_turn g pid action data env = Except.ok (r, g') →
       lookupHex g c = some cell → cell.bonus_consumed = true →
       ∃ cell', lookupHex g' c = some cell' ∧ cell'.bonus_consumed = true) := by
  refine ⟨?_, ?_, ?_⟩
  · intro g pid data p t cell r g' hp ht hadj hcell hen hrun htype hb
    rw [action_move_success g pid data p t cell hp ht hadj hcell hen] at hrun
    dsimp only at hrun
    rw [if_pos ⟨htype, hb⟩] at hrun
    obtain ⟨h1, h2⟩ := Prod.mk.injEq .. ▸ (Except.ok.injEq .. ▸ hrun)
    subst h2
    obtain ⟨p2, hp2, he2, hm2, _, _, _, _, _⟩ :=
      getPlayer_update_vision_self (setPlayer g pid _) pid _
        (getPlayer_setPlayer_self g pid
          (fun q => { q with position := t, energy := q.energy - 2, bad_moves := 0 })
          p hp)
    refine ⟨?_, ?_, by rw [← h1]⟩
    · rw [lookupHex_setHex, lookupHex_setPlayer, lookupHex_update_vision,
        lookupHex_setPlayer, hcell]
      simp
    · rw [getPlayer_setHex, getPlayer_setPlayer_self _ _ _ _ hp2]
      show some (min p2.max_energy (p2.energy + 3)) = _
      rw [he2, hm2]
  · intro g pid data p t cell r g' hp ht hadj hcell hen hrun htype hb
    rw [action_move_success g pid data p t cell hp ht hadj hcell hen] at hrun
    dsimp only at hrun
    rw [if_neg (by simp [hb])] at hrun
    obtain ⟨h1, h2⟩ := Prod.mk.injEq .. ▸ (Except.ok.injEq .. ▸ hrun)
    subst h2
    obtain ⟨p2, hp2, he2, _, _, _, _, _, _⟩ :=
      getPlayer_update_vision_self (setPlayer g pid _) pid _
        (getPlayer_setPlayer_self g pid
          (fun q => { q with position := t, energy := q.energy - 2, bad_moves := 0 })
          p hp)
    refine ⟨?_, ?_, by rw [← h1]⟩
    · rw [lookupHex_update_vision, lookupHex_setPlayer, hcell]
      simp [hb]
    · rw [hp2]
      show some p2.energy = _
      rw [he2]
  · intro g pid action data env r g' c cell hrun hc hb
    obtain ⟨cell', hcell', keep⟩ := (presW_execute_turn g pid action data env r g' hrun).2
      c cell hc
    exact ⟨cell', hcell', keep hb⟩

/-- C9 witness: in `resourceGame` the MOVE onto the fresh resource cell
caps energy at the maximum and consumes the bonus. -/
theorem C9_resource_bonus_once_witness :
    (lookupHex resourceAfter (1, 0)).map Cell.bonus_consumed = some true ∧
    (getPlayer resourceAfter 1).map Player.energy = some (min 15 (15 - 2 + 3)) ∧
    resRes.success = true :=
  C9_resource_bonus_once.1 resourceGame 1 { target := some (1, 0) }
    (mkPlayer 1 (0, 0)) (1, 0) { type := .RESOURCE } resRes resourceAfter
    rfl rfl (by decide) rfl (by decide) rfl rfl rfl

/-- C6: ATTACK on an adjacent, alive, non-defending target reduces the
target's shield by the raw attack power floored at 0; health damage is
`max 0 (attack − shield-before − defense)`; on positive damage the
attacker steals `min 3 (target energy)`, capped at the attacker's maximum;
in the concrete duel scenario the defender ends at health 98 and the
attacker steals 3 energy. -/
theorem C6_attack_semantics :
    (∀ (g : Game) (pid tid : Nat) (data : ActionData) (atk tgt : Player)
       (r : ActRes) (g' : Game),
       getPlayer g pid = some atk → data.target_player = some tid →
       pid ≠ tid → getPlayer g tid = some tgt →
       tgt.status = StatusField.enum .ALIVE →
       is_adjacent atk.position tgt.position = true →
       tgt.defending = false → ¬ atk.energy < 4 →
       action_attack_player g pid data = Except.ok (r, g') →
       (getPlayer g' tid).map Player.shield =
         some (max 0 (tgt.shield - atk.attack_power)) ∧
       (getPlayer g' tid).map Player.health =
         some (tgt.health - max 0 (atk.attack_power - tgt.shield - tgt.defense_power)) ∧
       (0 < max 0 (atk.attack_power - tgt.shield - tgt.defense_power) →
         r.energy_stolen = some (min 3 tgt.energy) ∧
         (getPlayer g' pid).map Player.energy =
           some (min atk.max_energy (atk.energy - 4 + min 3 tgt.energy)))) ∧
    ((getPlayer duelAfter 2).map Player.health = some 98 ∧
     duelRes.damage_dealt = some 2 ∧ duelRes.energy_stolen = some 3 ∧
     (getPlayer duelAfter 1).map Player.energy = some 14) := by
  constructor
  · intro g pid tid data atk tgt r g' hp ht hne htgt halive hadj hdef hen hrun
    rw [action_attack_success g pid tid data atk tgt hp ht htgt halive hadj hdef hen]
      at hrun
    dsimp only at hrun
    have h1tid : getPlayer (setPlayer g pid (fun p =>
        { p with energy :=
            if max 0 (atk.attack_power - tgt.shield - tgt.defense_power) > 0
            then min atk.max_energy (atk.energy - 4 +
              (if max 0 (atk.attack_power - tgt.shield - tgt.defense_power) > 0
               then min 3 tgt.energy else 0))
            else atk.energy - 4 })) tid = some tgt := by
      rw [getPlayer_setPlayer_other _ _ _ _ (Ne.symm hne)]
      exact htgt
    have hg2tid := getPlayer_setPlayer_self _ tid (fun p =>
      { p with shield := max 0 (p.shield - atk.attack_power),
               health := p.health -
                 max 0 (atk.attack_power - tgt.shield - tgt.defense_power),
               energy := p.energy -
                 (if max 0 (atk.attack_power - tgt.shield - tgt.defense_power) > 0
                  then min 3 tgt.energy else 0) }) tgt h1tid
    have hg2pid : getPlayer (setPlayer (setPlayer g pid (fun p =>
        { p with energy :=
            if max 0 (atk.attack_power - tgt.shield - tgt.defense_power) > 0
            then min atk.max_energy (atk.energy - 4 +
              (if max 0 (atk.attack_power - tgt.shield - tgt.defense_power) > 0
               then min 3 tgt.energy else 0))
            else atk.energy - 4 })) tid (fun p =>
        { p with shield := max 0 (p.shield - atk.attack_power),
                 health := p.health -
                   max 0 (atk.attack_power - tgt.shield - tgt.defense_power),
                 energy := p.energy -
                   (if max 0 (atk.attack_power - tgt.shield - tgt.defense_power) > 0
                    then min 3 tgt.energy else 0) })) pid = some ({ atk with
        energy :=
          if max 0 (atk.attack_power - tgt.shield - tgt.defense_power) > 0
          then min atk.max_energy (atk.energy - 4 +
            (if max 0 (atk.attack_power - tgt.shield - tgt.defense_power) > 0
             then min 3 tgt.energy else 0))
          else atk.energy - 4 }) := by
      rw [getPlayer_setPlayer_other _ _ _ _ hne]
      exact getPlayer_setPlayer_self _ _ _ _ hp
    split at hrun
    · obtain ⟨h1, h2⟩ := Prod.mk.injEq .. ▸ (Except.ok.injEq .. ▸ hrun)
      subst h2
      obtain ⟨s, hs⟩ := getPlayer_eliminate_frame _ tid tid _ hg2tid
      obtain ⟨s2, hs2⟩ := getPlayer_eliminate_frame _ tid pid _ hg2pid
      refine ⟨?_, ?_, ?_⟩
      · rw [getPlayer_setPlayer_other _ _ _ _ (Ne.symm hne), hs]
        rfl
      · rw [getPlayer_setPlayer_other _ _ _ _ (Ne.symm hne), hs]
        rfl
      · intro hpos
        constructor
        · rw [← h1]
          show some (if max 0 (atk.attack_power - tgt.shield - tgt.defense_power) > 0
                     then min 3 tgt.energy else 0) = _
          rw [if_pos hpos]
        · rw [getPlayer_setPlayer_self _ _ _ _ hs2]
          show some (if max 0 (atk.attack_power - tgt.shield - tgt.defense_power) > 0
                     then min atk.max_energy (atk.energy - 4 +
                       (if max 0 (atk.attack_power - tgt.shield - tgt.defense_power) > 0
                        then min 3 tgt.energy else 0))
                     else atk.energy - 4) = _
          rw [if_pos hpos, if_pos hpos]
    · obtain ⟨h1, h2⟩ := Prod.mk.injEq .. ▸ (Except.ok.injEq .. ▸ hrun)
      subst h2
      refine ⟨?_, ?_, ?_⟩
      · rw [hg2tid]
        rfl
      · rw [hg2tid]
        rfl
      · intro hpos
        constructor
        · rw [← h1]
          show some (if max 0 (atk.attack_power - tgt.shield - tgt.defense_power) > 0
                     then min 3 tgt.energy else 0) = _
          rw [if_pos hpos]
        · rw [hg2pid]
          show some (if max 0 (atk.attack_power - tgt.shield - tgt.defense_power) > 0
                     then min atk.max_energy (atk.energy - 4 +
                       (if max 0 (atk.attack_power - tgt.shield - tgt.defense_power) > 0
                        then min 3 tgt.energy else 0))
                     else atk.energy - 4) = _
          rw [if_pos hpos, if_pos hpos]
  · exact ⟨rfl, rfl, rfl, rfl⟩

/-- C6 witness: the scenario instance of the general statement, at
`duelGame` (attacker 1 at full stats, defender 2 with shield 0 and
defense 3). -/
theorem C6_attack_semantics_witness :
    (getPlayer duelAfter 2).map Player.shield = some (max 0 ((0 : Int) - 5)) ∧
    (getPlayer duelAfter 2).map Player.health =
      some (100 - max 0 ((5 : Int) - 0 - 3)) ∧
    ((0 : Int) < max 0 ((5 : Int) - 0 - 3) →
      duelRes.energy_stolen = some (min 3 (15 : Int)) ∧
      (getPlayer duelAfter 1).map Player.energy =
        some (min 15 ((15 : Int) - 4 + min 3 15))) :=
  C6_attack_semantics.1 duelGame 1 2 { target_player := some 2 }
    (mkPlayer 1 (0, 0)) (mkPlayer 2 (1, 0)) duelRes duelAfter
    rfl rfl (by decide) rfl rfl (by decide) rfl (by decide) rfl

/-- C1: the claimed invariant — energy clamped at 0 and exact depletion
eliminating the player with reason energy depleted — is what the post-action
block of `_execute_action` documents, but the block reads the `alive` key
that no player dict has: at the concrete reachable input of a player with
energy 2 making a legal MOVE, the resolution raises `KeyError` instead of
eliminating. -/
theorem C1_energy_depletion_keyerror :
    execute_action lowEnergyGame 1 ActionType.MOVE { target := some (1, 0) } {} =
      Except.error ("KeyError: alive") := rfl

/-- C2: the core does crash — `execute_turn` on a player whose legal MOVE
brings energy to exactly 0 propagates the `KeyError` on the undefined
player `alive` field rather than returning a structured outcome. -/
theorem C2_unhandled_exception :
    execute_turn lowEnergyGame2 1 ActionType.MOVE { target := some (1, 0) } {} =
      Except.error ("KeyError: alive") := rfl

/-- C4 counterexample: after the three-strike disqualification in `dqGame`,
player 1 has left the ALIVE status, yet the cell `(0,0)` they owned is
still owned by them — the DQ path releases no territory. -/
theorem C4_counterexample :
    (getPlayer dqAfter 1).map Player.status =
      some (StatusField.str ("eliminated")) ∧
    (lookupHex dqAfter (0, 0)).map Cell.owner = some (some 1) := ⟨rfl, rfl⟩

/-- C7 counterexample: STEAL_PROGRESS with a successful hint roll pops the
target's last unlocked hint — the target held one hint before and none
after, so a hint once held can be lost and the sequence is not monotone
across every action. -/
theorem C7_counterexample :
    (getPlayer stealGame 2).map Player.ctf_hints =
      some ["The flag format is: flag\x7b...\x7d"] ∧
    (getPlayer stealAfter 2).map Player.ctf_hints = some [] := ⟨rfl, rfl⟩

/-- C5: no reset of `defending` exists anywhere in the engine: any turn
executed by anyone (hence in particular every turn of the following round)
preserves a true `defending` flag, and the driver's only other per-round
mutation, the round-number assignment, does not touch players; so the flag
set by DEFEND is never cleared at the next round start, contradicting the
claimed reset. -/
theorem C5_defending_never_reset :
    (∀ (g : Game) (pid : Nat) (action : ActionType) (data : ActionData) (env : Env)
       (r : ActRes) (g' : Game) (qid : Nat) (q : Player),
       execute_turn g pid action data env = Except.ok (r, g') →
       getPlayer g qid = some q → q.defending = true →
       ∃ q', getPlayer g' qid = some q' ∧ q'.defending = true) ∧
    (∀ (g : Game) (n : Nat), (set_round g n).players = g.players) := by
  constructor
  · intro g pid action data env r g' qid q hrun hq hdef
    obtain ⟨q', hq', keep⟩ := (presW_execute_turn g pid action data env r g' hrun).1 qid q hq
    exact ⟨q', hq', keep hdef⟩
  · intro g n
    rfl

/-- C5 witness: player 2 defended (flag true); a full later turn by player 1
resolves and player 2 is still defending. -/
theorem C5_witness :
    (getPlayer defendGame 2).map Player.defending = some true ∧
    ∃ q', getPlayer defendAfter 2 = some q' ∧ q'.defending = true := by
  constructor
  · rfl
  · exact C5_defending_never_reset.1 defendGame 1 ActionType.REST {} {} defendRes
      defendAfter 2 { mkPlayer 2 (1, 0) with defending := true } rfl rfl rfl

/-- C4 (amended): once a participant's status leaves ALIVE no further
action resolves for them (the turn returns an error outcome and the state
is unchanged); on every elimination path that goes through
`eliminate_player` every cell of the territory list is released; the
three-strike disqualification path, however, marks the player eliminated
without touching the board, so it releases nothing. -/
theorem C4_elimination_amended :
    (∀ (g : Game) (pid : Nat) (action : ActionType) (data : ActionData) (env : Env)
       (p : Player),
       getPlayer g pid = some p → p.status ≠ StatusField.enum .ALIVE →
       ∃ r, execute_turn g pid action data env = Except.ok (r, g)) ∧
    (∀ (g : Game) (pid : Nat) (p : Player) (c : Coord),
       getPlayer g pid = some p → c ∈ p.territories →
       ∀ cell, lookupHex (eliminate_player g pid) c = some cell →
         cell.owner = none) ∧
    (∀ (g : Game) (pid : Nat) (data : ActionData) (p : Player) (t : Coord)
       (r : ActRes) (g' : Game),
       getPlayer g pid = some p → data.target = some t →
       is_adjacent p.position t = false →
       action_move g pid data = Except.ok (r, g') →
       g'.hexagons = g.hexagons) := by
  refine ⟨?_, ?_, ?_⟩
  · intro g pid action data env p hp hstat
    by_cases hgo : g.game_over
    · exact ⟨_, by unfold execute_turn; rw [if_pos hgo]⟩
    · exact ⟨_, by
        unfold execute_turn
        rw [if_neg hgo, hp]
        dsimp only
        rw [if_pos hstat]⟩
  · intro g pid p c hp hmem cell hcell
    unfold eliminate_player at hcell
    rw [hp] at hcell
    dsimp only at hcell
    split at hcell
    · exact foldl_release_mem p.territories _ c hmem cell hcell
    · exact foldl_release_mem p.territories _ c hmem cell hcell
    · exact foldl_release_mem p.territories _ c hmem cell hcell
  · intro g pid data p t r g' hp ht hadj hrun
    unfold action_move at hrun
    rw [hp, ht] at hrun
    dsimp only at hrun
    rw [if_pos (by simp [hadj])] at hrun
    split at hrun
    · obtain ⟨h1, h2⟩ := Prod.mk.injEq .. ▸ (Except.ok.injEq .. ▸ hrun)
      subst h2
      rfl
    · obtain ⟨h1, h2⟩ := Prod.mk.injEq .. ▸ (Except.ok.injEq .. ▸ hrun)
      subst h2
      rfl

/-- C4 witness: the eliminate-player path does clear ownership of the
territory cell of `dqGame`'s player 1, and a turn requested for the
already-disqualified player 1 in `dqAfter` resolves to an error outcome
with the state unchanged. -/
theorem C4_elimination_amended_witness :
    (∀ cell, lookupHex (eliminate_player dqGame 1) (0, 0) = some cell →
       cell.owner = none) ∧
    ∃ r, execute_turn dqAfter 1 ActionType.REST {} {} = Except.ok (r, dqAfter) := by
  constructor
  · exact fun cell h => C4_elimination_amended.2.1 dqGame 1
      { mkPlayer 1 (0, 0) with territories := [(0, 0)], bad_moves := 2 } (0, 0)
      rfl (by decide) cell h
  · exact C4_elimination_amended.1 dqAfter 1 ActionType.REST {} {}
      { mkPlayer 1 (0, 0) with
          energy := 14, status := .str ("eliminated"), bad_moves := 3,
          territories := [(0, 0)], alive := some false }
      rfl (by decide)

/-- C7 (amended): the original invariant fails — STEAL_PROGRESS moves a
hint from the target to the attacker, so the sequence is neither monotone
nor always a pool prefix (see the counterexample).  What the engine does
guarantee, per action: (1) SOLVE_CTF preserves the pool-prefix discipline:
a participant holding the first `k` of the 3 pool hints ends holding the
first `k'` with `k ≤ k' ≤ 3`, and whenever new hints are granted the
resulting progress meets the threshold `25·k'` of the last hint granted —
so along solves, hints are granted only at the 25/50/75 thresholds, each
at most once, in ascending order, never beyond three; (2) every action
other than STEAL_PROGRESS only ever appends to every participant's
sequence; (3) a successful STEAL_PROGRESS hint roll removes the target's
last unlocked hint and appends it to the attacker's sequence exactly when
the attacker does not already hold it. -/
theorem C7_hints_amended :
    (∀ (g : Game) (pid : Nat) (data : ActionData) (env : Env) (r : ActRes)
       (g' : Game) (p : Player) (k : Nat),
       getPlayer g pid = some p → g.ctf_hints_pool.length = 3 →
       p.ctf_hints = g.ctf_hints_pool.take k → k ≤ 3 →
       action_solve_ctf g pid data env = Except.ok (r, g') →
       ∃ k' np, (getPlayer g' pid).map Player.ctf_hints =
           some (g.ctf_hints_pool.take k') ∧
         (getPlayer g' pid).map Player.ctf_progress = some np ∧
         k ≤ k' ∧ k' ≤ 3 ∧ (k < k' → 25 * (k' : ℚ) ≤ np)) ∧
    (∀ (g : Game) (pid : Nat) (action : ActionType) (data : ActionData)
       (env : Env) (r : ActRes) (g' : Game) (qid : Nat) (q : Player),
       action ≠ ActionType.STEAL_PROGRESS →
       execute_turn g pid action data env = Except.ok (r, g') →
       getPlayer g qid = some q →
       ∃ q' t2, getPlayer g' qid = some q' ∧ q'.ctf_hints = q.ctf_hints ++ t2) ∧
    (∀ (g : Game) (pid tid : Nat) (data : ActionData) (env : Env)
       (atk tgt : Player) (r : ActRes) (g' : Game),
       getPlayer g pid = some atk → data.target_player = some tid → pid ≠ tid →
       getPlayer g tid = some tgt → tgt.status = StatusField.enum .ALIVE →
       is_adjacent atk.position tgt.position = true →
       ¬ atk.energy < 6 → ¬ tgt.health > 50 →
       env.stealRoll = true → tgt.ctf_hints ≠ [] →
       action_steal_progress g pid data env = Except.ok (r, g') →
       (getPlayer g' tid).map Player.ctf_hints =
         some tgt.ctf_hints.dropLast ∧
       (getPlayer g' pid).map Player.ctf_hints =
         some (if tgt.ctf_hints.getLastD ("") ∈ atk.ctf_hints
               then atk.ctf_hints
               else atk.ctf_hints ++ [tgt.ctf_hints.getLastD ("")])) := by
  refine ⟨?_, ?_, ?_⟩
  · intro g pid data env r g' p k hp hpool hk hk3 hrun
    unfold action_solve_ctf at hrun
    rw [hp] at hrun
    dsimp only at hrun
    split at hrun
    · obtain ⟨h1, h2⟩ := Prod.mk.injEq .. ▸ (Except.ok.injEq .. ▸ hrun)
      subst h2
      refine ⟨k, p.ctf_progress, ?_, ?_, le_refl k, hk3,
        fun hlt => absurd hlt (lt_irrefl k)⟩
      · rw [hp]
        simp [hk]
      · rw [hp]
        rfl
    · split at hrun
      · obtain ⟨h1, h2⟩ := Prod.mk.injEq .. ▸ (Except.ok.injEq .. ▸ hrun)
        subst h2
        have h1p := getPlayer_setPlayer_self g pid
          (fun q => { q with energy := q.energy - 5, ctf_attempts := q.ctf_attempts + 1 })
          p hp
        obtain ⟨s, hs⟩ := getPlayer_declare_frame _ pid false pid _ h1p
        refine ⟨k, p.ctf_progress, ?_, ?_, le_refl k, hk3,
          fun hlt => absurd hlt (lt_irrefl k)⟩
        · rw [hs]
          show some p.ctf_hints = _
          rw [hk]
        · rw [hs]
          rfl
      · obtain ⟨h1, h2⟩ := Prod.mk.injEq .. ▸ (Except.ok.injEq .. ▸ hrun)
        subst h2
        have h1p := getPlayer_setPlayer_self g pid
          (fun q => { q with energy := q.energy - 5, ctf_attempts := q.ctf_attempts + 1 })
          p hp
        rw [getPlayer_setPlayer_self _ _ _ _ h1p]
        obtain ⟨k', hEq, hle, hle3, hth⟩ := unlock3_take' g.ctf_hints_pool
          (min 100 (p.ctf_progress + calc_ctf_progress_gain
            { p with energy := p.energy - 5, ctf_attempts := p.ctf_attempts + 1 }
            env.baseGain)) k p.ctf_hints hpool hk3 hk
        exact ⟨k', min 100 (p.ctf_progress + calc_ctf_progress_gain
          { p with energy := p.energy - 5, ctf_attempts := p.ctf_attempts + 1 }
          env.baseGain), congrArg some hEq, rfl, hle, hle3, hth⟩
  · intro g pid action data env r g' qid q hne hrun hq
    obtain ⟨q', hq', keep⟩ := (pres_execute_turn g pid action data env r g' hne hrun).1
      qid q hq
    obtain ⟨t2, ht2⟩ := keep.2
    exact ⟨q', t2, hq', ht2⟩
  · intro g pid tid data env atk tgt r g' hp ht hne htgt halive hadj hen hweak
      henv hnonempty hrun
    rw [action_steal_success g pid tid data env atk tgt hp ht htgt halive hadj hen
      hweak] at hrun
    dsimp only at hrun
    obtain ⟨h1, h2⟩ := Prod.mk.injEq .. ▸ (Except.ok.injEq .. ▸ hrun)
    subst h2
    have hdo : env.stealRoll = true ∧ tgt.ctf_hints.length > 0 :=
      ⟨henv, List.length_pos.mpr hnonempty⟩
    refine ⟨?_, ?_⟩
    · rw [map_proj_setPlayer_untouched Player.ctf_hints _ tid
        (fun p => { p with health := p.health - 15 }) tid (fun q => rfl)]
      by_cases hC2 : (env.stealRoll = true ∧ tgt.ctf_hints.length > 0) ∧
          tgt.ctf_hints.getLastD ("") ∉ atk.ctf_hints
      · rw [if_pos hC2, getPlayer_setPlayer_other _ _ _ _ (Ne.symm hne),
          if_pos hdo,
          map_proj_setPlayer_comp Player.ctf_hints List.dropLast _ tid
            (fun p => { p with ctf_hints := p.ctf_hints.dropLast }) tid
            (fun q => rfl), if_pos rfl,
          map_proj_setPlayer_untouched Player.ctf_hints _ pid
            (fun p => { p with ctf_progress := min 100 (p.ctf_progress + tgt.ctf_progress * (2 / 5 : ℚ)) }) tid
            (fun q => rfl),
          map_proj_setPlayer_untouched Player.ctf_hints _ tid
            (fun p => { p with ctf_progress := max 0 (p.ctf_progress - tgt.ctf_progress * (2 / 5 : ℚ)) }) tid
            (fun q => rfl),
          map_proj_setPlayer_untouched Player.ctf_hints _ pid
            (fun p => { p with energy := p.energy - 6 }) tid (fun q => rfl),
          htgt]
        rfl
      · rw [if_neg hC2, if_pos hdo,
          map_proj_setPlayer_comp Player.ctf_hints List.dropLast _ tid
            (fun p => { p with ctf_hints := p.ctf_hints.dropLast }) tid
            (fun q => rfl), if_pos rfl,
          map_proj_setPlayer_untouched Player.ctf_hints _ pid
            (fun p => { p with ctf_progress := min 100 (p.ctf_progress + tgt.ctf_progress * (2 / 5 : ℚ)) }) tid
            (fun q => rfl),
          map_proj_setPlayer_untouched Player.ctf_hints _ tid
            (fun p => { p with ctf_progress := max 0 (p.ctf_progress - tgt.ctf_progress * (2 / 5 : ℚ)) }) tid
            (fun q => rfl),
          map_proj_setPlayer_untouched Player.ctf_hints _ pid
            (fun p => { p with energy := p.energy - 6 }) tid (fun q => rfl),
          htgt]
        rfl
    · rw [map_proj_setPlayer_untouched Player.ctf_hints _ tid
        (fun p => { p with health := p.health - 15 }) pid (fun q => rfl)]
      by_cases hmem : tgt.ctf_hints.getLastD ("") ∈ atk.ctf_hints
      · have hnC2 : ¬ ((env.stealRoll = true ∧ tgt.ctf_hints.length > 0) ∧
            tgt.ctf_hints.getLastD ("") ∉ atk.ctf_hints) := fun hC2 => hC2.2 hmem
        rw [if_neg hnC2, if_pos hdo,
          getPlayer_setPlayer_other _ _ _ _ hne,
          map_proj_setPlayer_untouched Player.ctf_hints _ pid
            (fun p => { p with ctf_progress := min 100 (p.ctf_progress + tgt.ctf_progress * (2 / 5 : ℚ)) }) pid
            (fun q => rfl),
          map_proj_setPlayer_untouched Player.ctf_hints _ tid
            (fun p => { p with ctf_progress := max 0 (p.ctf_progress - tgt.ctf_progress * (2 / 5 : ℚ)) }) pid
            (fun q => rfl),
          map_proj_setPlayer_untouched Player.ctf_hints _ pid
            (fun p => { p with energy := p.energy - 6 }) pid (fun q => rfl),
          hp, if_pos hmem]
        rfl
      · have hC2 : (env.stealRoll = true ∧ tgt.ctf_hints.length > 0) ∧
            tgt.ctf_hints.getLastD ("") ∉ atk.ctf_hints := ⟨hdo, hmem⟩
        rw [if_pos hC2,
          map_proj_setPlayer_comp Player.ctf_hints
            (fun l => l ++ [tgt.ctf_hints.getLastD ("")]) _ pid
            (fun p => { p with ctf_hints := p.ctf_hints ++ [tgt.ctf_hints.getLastD ("")] })
            pid (fun q => rfl), if_pos rfl,
          if_pos hdo, getPlayer_setPlayer_other _ _ _ _ hne,
          map_proj_setPlayer_untouched Player.ctf_hints _ pid
            (fun p => { p with ctf_progress := min 100 (p.ctf_progress + tgt.ctf_progress * (2 / 5 : ℚ)) }) pid
            (fun q => rfl),
          map_proj_setPlayer_untouched Player.ctf_hints _ tid
            (fun p => { p with ctf_progress := max 0 (p.ctf_progress - tgt.ctf_progress * (2 / 5 : ℚ)) }) pid
            (fun q => rfl),
          map_proj_setPlayer_untouched Player.ctf_hints _ pid
            (fun p => { p with energy := p.energy - 6 }) pid (fun q => rfl),
          hp, if_neg hmem]
        rfl

/-- C7 witness: the steal path of the amended claim at `stealGame` — the
target's one-hint sequence loses its last element and the attacker, who
held no hints, ends holding exactly the stolen one. -/
theorem C7_hints_amended_witness :
    (getPlayer stealAfter 2).map Player.ctf_hints =
      some (["The flag format is: flag\x7b...\x7d"].dropLast) ∧
    (getPlayer stealAfter 1).map Player.ctf_hints =
      some (["The flag format is: flag\x7b...\x7d"]) :=
  C7_hints_amended.2.2 stealGame 1 2 { target_player := some 2 }
    { stealRoll := true } (mkPlayer 1 (0, 0))
    { mkPlayer 2 (1, 0) with
        health := 40, ctf_progress := 50,
        ctf_hints := ["The flag format is: flag\x7b...\x7d"] }
    stealRes stealAfter rfl rfl (by decide) rfl rfl (by decide) (by decide)
    (by decide) rfl (by decide) rfl

/-- C10: the three-strike disqualification assigns the raw string
`"eliminated"` to the status field, and any subsequent `get_game_state`
call faults while reading `status.value` over the players. -/
theorem C10_dq_breaks_game_state :
    ∀ (g : Game) (pid : Nat) (data : ActionData) (p : Player) (t : Coord)
      (r : ActRes) (g' : Game),
      getPlayer g pid = some p → data.target = some t →
      p.bad_moves = 2 → is_adjacent p.position t = false →
      action_move g pid data = Except.ok (r, g') →
      (∃ q, getPlayer g' pid = some q ∧
        q.status = StatusField.str ("eliminated")) ∧
      ∃ e, get_game_state g' = Except.error e := by
  intro g pid data p t r g' hp ht hbad hadj hrun
  unfold action_move at hrun
  rw [hp, ht] at hrun
  dsimp only at hrun
  rw [if_pos (by simp [hadj]), hbad] at hrun
  rw [if_pos (by norm_num)] at hrun
  obtain ⟨h1, h2⟩ := Prod.mk.injEq .. ▸ (Except.ok.injEq .. ▸ hrun)
  subst h2
  have hq := getPlayer_setPlayer_self _ pid
    (fun q => { q with alive := some false,
                       status := StatusField.str (PlayerStatus.ELIMINATED.value) })
    _ (getPlayer_setPlayer_self g pid
        (fun q => { q with bad_moves := q.bad_moves + 1,
                           energy := max 0 (q.energy - 1) }) p hp)
  refine ⟨⟨_, hq, rfl⟩, ?_⟩
  exact viewPlayers_error _ pid _ ("eliminated") (alookup_mem _ _ _ hq) rfl

/-- C10 witness: the concrete disqualification in `dqGame` leaves the raw
string status and makes the state export fault. -/
theorem C10_dq_breaks_game_state_witness :
    (∃ q, getPlayer dqAfter 1 = some q ∧
      q.status = StatusField.str ("eliminated")) ∧
    ∃ e, get_game_state dqAfter = Except.error e :=
  C10_dq_breaks_game_state dqGame 1 { target := some (5, 5) }
    { mkPlayer 1 (0, 0) with territories := [(0, 0)], bad_moves := 2 } (5, 5)
    dqRes dqAfter rfl rfl rfl (by decide) rfl

/-- C8: for all axial coordinates `a` and `b`, `_is_adjacent(a, b)` holds
iff `_hex_distance(a, b) = 1`, the distance is symmetric, and the distance
is zero iff the coordinates are equal. -/
theorem C8_geometry (a b : Coord) :
    (is_adjacent a b = true ↔ hex_distance a b = 1) ∧
    hex_distance a b = hex_distance b a ∧
    (hex_distance a b = 0 ↔ a = b) := by
  refine ⟨?_, ?_, ?_⟩
  · simp [is_adjacent, hex_distance]
  · simp only [hex_distance]
    omega
  · simp only [hex_distance, Prod.ext_iff]
    omega

end CTFGame
